import Mathlib

/-! Record access layer of libosmscout: `DataFile<N>`

A shallow embedding of `libosmscout/include/osmscout/DataFile.h`.  The class
template `DataFile<N>` owns a cache (`Cache<FileOffset,N>`), a file reader
(`FileScanner`) and an index (`NumericIndex<Id,N>`).  The three collaborators
are declared in headers that are not part of the examined sources, so they are
modelled here from their documented contract; the member functions of
`DataFile<N>` are translated statement by statement.

State is passed explicitly.  Everything the outside world decides (whether a
file can be opened, what a record decodes to, whether closing reports an
error) is collected in an environment value `Env`.
-/

namespace osmscout

/-- Byte position into the data file (`FileOffset`). -/
abbrev FileOffset := Nat

/-- Logical object identifier (`Id`), totally ordered. -/
abbrev Id := Nat

/-- Result of `N::Read(scanner)` at one position of a data file: the value the
record holds after the read and whether the reader flagged an error.  With
`error = true` the value is whatever the interrupted decode left behind. -/
structure ReadOutcome (N : Type) where
  value : N
  error : Bool

/-- A data file as seen through `SetPos` followed by `N::Read`: the outcome of
decoding at every position (positions past the end carry `error = true`). -/
abbrev FileContent (N : Type) := FileOffset → ReadOutcome N

/-- A `std::set` of keys (`std::set<FileOffset>`, `std::set<Id>`): its elements
in iteration order, which is strictly ascending. -/
structure StdSet where
  elems : List Nat
  ascending : elems.Pairwise (· < ·)

/-- A loaded index as seen through `GetOffsets`: `none` when at least one
identifier cannot be resolved, otherwise the offsets in the order the index
produces them. -/
abbrev IndexContent := List Id → Option (List FileOffset)

/-- The world outside the store at the time of one call. -/
structure Env (N : Type) where
  /-- the data files that can currently be opened, by complete file name -/
  files : String → Option (FileContent N)
  /-- the index files that can currently be loaded, by complete file name -/
  indexFiles : String → Option IndexContent
  /-- whether the operating system reports success when a handle is closed -/
  closeOk : Bool

/-! ## File reader -/

/-- Modelled from the spec: `osmscout/FileScanner.h` is not among the examined
sources.  The reader holds at most one open file, one cursor and an error
flag.  `reads` and `opens` are observation hooks counting decode operations and
open attempts. -/
structure FileScanner (N : Type) where
  file : Option (FileContent N)
  pos : FileOffset
  hasError : Bool
  reads : Nat
  opens : Nat

namespace FileScanner

variable {N : Type}

/-- Modelled from the spec: `FileScanner::IsOpen`. -/
def IsOpen (s : FileScanner N) : Bool := s.file.isSome

/-- Modelled from the spec: `FileScanner::HasError`. -/
def HasError (s : FileScanner N) : Bool := s.hasError

/-- Modelled from the spec: `FileScanner::Open(filename)`; succeeds exactly
when the environment can open the named file, and binds the reader to it. -/
def Open (env : Env N) (s : FileScanner N) (filename : String) : Bool × FileScanner N :=
  match env.files filename with
  | some f => (true, { s with file := some f, pos := 0, hasError := false, opens := s.opens + 1 })
  | none => (false, { s with file := none, hasError := true, opens := s.opens + 1 })

/-- Modelled from the spec: `FileScanner::Close()`; releases the handle and
returns whether the underlying close reported success.  Closing a reader that
is not open reports failure. -/
def Close (env : Env N) (s : FileScanner N) : Bool × FileScanner N :=
  match s.file with
  | some _ => (env.closeOk, { s with file := none })
  | none => (false, s)

/-- Modelled from the spec: `FileScanner::SetPos(pos)`; moves the cursor and
clears the error flag. -/
def SetPos (s : FileScanner N) (o : FileOffset) : FileScanner N :=
  { s with pos := o, hasError := false }

/-- Modelled from the spec: `N::Read(scanner)`; decodes one record at the
cursor.  Returns the value the record holds afterwards and the reader with its
error flag set when the decode failed. -/
def Read [Inhabited N] (s : FileScanner N) : N × FileScanner N :=
  match s.file with
  | some f => ((f s.pos).value, { s with hasError := (f s.pos).error, reads := s.reads + 1 })
  | none => (default, { s with hasError := true })

end FileScanner

/-! ## Cache -/

/-- Modelled from the spec: `osmscout/Cache.h` is not among the examined
sources.  A bounded cache keyed by file offset; `entries` is ordered from most
to least recently used. -/
structure Cache (N : Type) where
  maxSize : Nat
  entries : List (FileOffset × N)

namespace Cache

variable {N : Type}

/-- Modelled from the spec: `Cache::GetEntry(key, reference)`; on a hit the
slot becomes the most recently used one and the reference designates it (its
value is returned here). -/
def GetEntry (c : Cache N) (key : FileOffset) : Option (N × Cache N) :=
  match c.entries.find? (fun e => e.1 == key) with
  | some e => some (e.2, { c with entries := e :: c.entries.filter (fun x => x.1 != key) })
  | none => none

/-- Modelled from the spec: `Cache::SetEntry(CacheEntry(key))`; creates or
replaces the slot for `key`, holding a default-constructed record, as the most
recently used slot, and evicts the least recently used other slots beyond the
capacity.  The returned reference designates the slot of `key`. -/
def SetEntry [Inhabited N] (c : Cache N) (key : FileOffset) : Cache N :=
  { c with entries :=
      (key, default) :: ((c.entries.filter (fun x => x.1 != key)).take (c.maxSize - 1)) }

/-- Assignment through a cache reference: `cacheRef->value = v` for the
reference designating the slot of `key`. -/
def setValue (c : Cache N) (key : FileOffset) (v : N) : Cache N :=
  { c with entries := c.entries.map (fun e => if e.1 == key then (e.1, v) else e) }

/-- The record the cache holds for `key`, if any (no recency update). -/
def lookup (c : Cache N) (key : FileOffset) : Option N :=
  (c.entries.find? (fun e => e.1 == key)).map (fun e => e.2)

end Cache

/-! ## Index -/

/-- Modelled from the spec: `osmscout/NumericIndex.h` is not among the examined
sources.  The index is constructed with the basename of its file and holds the
content of the last successful load.  `loads` is an observation hook counting
load attempts. -/
structure DataIndex where
  indexfile : String
  content : Option IndexContent
  loads : Nat

namespace DataIndex

/-- Modelled from the spec: `NumericIndex::Load(path)`; succeeds exactly when
the environment can load the index file under `path`. -/
def Load {N : Type} (env : Env N) (i : DataIndex) (path : String) : Bool × DataIndex :=
  match env.indexFiles (path ++ "/" ++ i.indexfile) with
  | some c => (true, { i with content := some c, loads := i.loads + 1 })
  | none => (false, { i with loads := i.loads + 1 })

/-- Modelled from the spec: `NumericIndex::GetOffsets(ids, offsets)`; `none`
stands for the return value `false`. -/
def GetOffsets (i : DataIndex) (ids : List Id) : Option (List FileOffset) :=
  match i.content with
  | some f => f ids
  | none => none

end DataIndex

/-! ## The store -/

/-- The data members of `DataFile<N>`. -/
structure DataFile (N : Type) where
  isOpen : Bool
  datafile : String
  datafilename : String
  cache : Cache N
  scanner : FileScanner N
  index : DataIndex

namespace DataFile

variable {N : Type}

/-- The constructor `DataFile(datafile, indexfile, cacheSize)`. -/
def create (datafile indexfile : String) (cacheSize : Nat) : DataFile N :=
  { isOpen := false
    datafile := datafile
    datafilename := ""
    cache := { maxSize := cacheSize, entries := [] }
    scanner := { file := none, pos := 0, hasError := false, reads := 0, opens := 0 }
    index := { indexfile := indexfile, content := none, loads := 0 } }

/-- The member function `Open(path)`.  The operator `&&` evaluates its right
operand only when the left one is true. -/
def Open (env : Env N) (df : DataFile N) (path : String) : Bool × DataFile N :=
  let datafilename := path ++ "/" ++ df.datafile
  let so := df.scanner.Open env datafilename
  if so.1 then
    let il := df.index.Load env path
    (il.1, { df with datafilename := datafilename, scanner := so.2, index := il.2, isOpen := il.1 })
  else
    (false, { df with datafilename := datafilename, scanner := so.2, isOpen := false })

/-- The member function `Close()`. -/
def Close (env : Env N) (df : DataFile N) : Bool × DataFile N :=
  if df.scanner.IsOpen then
    let sc := df.scanner.Close env
    (if !sc.1 then false else true, { df with scanner := sc.2, isOpen := false })
  else
    (true, { df with isOpen := false })

/-- The loop of `Get(const std::vector<FileOffset>&, std::vector<N>&)`: the
offsets still to be processed and the output built so far.  The result is the
return value, the store and the output at the point where the function
returns. -/
def getLoop [Inhabited N] (env : Env N) (df : DataFile N) :
    List FileOffset → List N → Bool × DataFile N × List N
  | [], data => (true, df, data)
  | offset :: rest, data =>
    match df.cache.GetEntry offset with
    | some (v, cache1) =>
      getLoop env { df with cache := cache1 } rest (data ++ [v])
    | none =>
      let cache1 := df.cache.SetEntry offset
      let scanner1 := df.scanner.SetPos offset
      let rd := scanner1.Read
      let cache2 := cache1.setValue offset rd.1
      if rd.2.HasError then
        (false, { df with cache := cache2, scanner := (rd.2.Close env).2 }, data)
      else
        getLoop env { df with cache := cache2, scanner := rd.2 } rest (data ++ [rd.1])

/-- The member function `Get(const std::vector<FileOffset>&, std::vector<N>&)`.
The result `none` stands for a failed `assert(isOpen)`; otherwise the result is
the return value, the store afterwards and the output container afterwards. -/
def Get [Inhabited N] (env : Env N) (df : DataFile N) (offsets : List FileOffset)
    (data : List N) : Option (Bool × DataFile N × List N) :=
  if !df.isOpen then none
  else if !df.scanner.IsOpen then
    let so := df.scanner.Open env df.datafilename
    if !so.1 then some (false, { df with scanner := so.2 }, data)
    else some (getLoop env { df with scanner := so.2 } offsets data)
  else some (getLoop env df offsets data)

/-- The loop of `Get(const std::set<FileOffset>&, std::vector<N>&)`, over the
elements of the set in iteration order. -/
def getSetLoop [Inhabited N] (env : Env N) (df : DataFile N) :
    List FileOffset → List N → Bool × DataFile N × List N
  | [], data => (true, df, data)
  | offset :: rest, data =>
    match df.cache.GetEntry offset with
    | some (v, cache1) =>
      getSetLoop env { df with cache := cache1 } rest (data ++ [v])
    | none =>
      let cache1 := df.cache.SetEntry offset
      let scanner1 := df.scanner.SetPos offset
      let rd := scanner1.Read
      let cache2 := cache1.setValue offset rd.1
      if rd.2.HasError then
        (false, { df with cache := cache2, scanner := (rd.2.Close env).2 }, data)
      else
        getSetLoop env { df with cache := cache2, scanner := rd.2 } rest (data ++ [rd.1])

/-- The member function `Get(const std::set<FileOffset>&, std::vector<N>&)`. -/
def GetSet [Inhabited N] (env : Env N) (df : DataFile N) (offsets : StdSet)
    (data : List N) : Option (Bool × DataFile N × List N) :=
  if !df.isOpen then none
  else if !df.scanner.IsOpen then
    let so := df.scanner.Open env df.datafilename
    if !so.1 then some (false, { df with scanner := so.2 }, data)
    else some (getSetLoop env { df with scanner := so.2 } offsets.elems data)
  else some (getSetLoop env df offsets.elems data)

/-- The member function `Get(const std::vector<Id>&, std::vector<N>&)`. -/
def GetIds [Inhabited N] (env : Env N) (df : DataFile N) (ids : List Id)
    (data : List N) : Option (Bool × DataFile N × List N) :=
  if !df.isOpen then none
  else
    match df.index.GetOffsets ids with
    | none => some (false, df, data)
    | some offsets => df.Get env offsets data

/-- The member function `Get(const std::set<Id>&, std::vector<N>&)`. -/
def GetIdSet [Inhabited N] (env : Env N) (df : DataFile N) (ids : StdSet)
    (data : List N) : Option (Bool × DataFile N × List N) :=
  if !df.isOpen then none
  else
    let i := ids.elems.foldl (fun acc id => acc ++ [id]) []
    match df.index.GetOffsets i with
    | none => some (false, df, data)
    | some offsets => df.Get env offsets data

/-- The member function `Get(const Id&, N&)`.  The result carries the return
value, the store afterwards and the value of `entry` afterwards. -/
def GetId [Inhabited N] (env : Env N) (df : DataFile N) (id : Id)
    (entry : N) : Option (Bool × DataFile N × N) :=
  if !df.isOpen then none
  else
    match df.GetIds env [id] [] with
    | none => none
    | some (ok, df1, data) =>
      if ok && data.length == 1 then some (true, df1, data.headD entry)
      else some (false, df1, entry)

end DataFile


/-! ## Concrete scenarios

Small stores of `Nat` records on which the operations are evaluated. -/

/-- A data file with records at offsets 0, 128 and 256; every other position
is unreadable and leaves the value 99 in the record being decoded. -/
def demoFileA : FileContent Nat := fun o =>
  if o = 0 then ⟨7, false⟩
  else if o = 128 then ⟨11, false⟩
  else if o = 256 then ⟨12, false⟩
  else ⟨99, true⟩

/-- A second generation of the data file: other records at offsets 0 and 128. -/
def demoFileB : FileContent Nat := fun o =>
  if o = 0 then ⟨5, false⟩
  else if o = 128 then ⟨6, false⟩
  else ⟨98, true⟩

/-- An index mapping identifier 1 to offset 0 and identifier 2 to offset 128. -/
def demoIndex : IndexContent := fun ids =>
  ids.mapM (fun id => if id = 1 then some 0 else if id = 2 then some 128 else none)

/-- Two directories `a` and `b`, each with a data file and an index file. -/
def demoEnv : Env Nat :=
  { files := fun n =>
      if n = "a/ways.dat" then some demoFileA
      else if n = "b/ways.dat" then some demoFileB
      else none
    indexFiles := fun n =>
      if n = "a/ways.idx" then some demoIndex
      else if n = "b/ways.idx" then some demoIndex
      else none
    closeOk := true }

/-- An environment in which no file can be opened any more. -/
def offlineEnv : Env Nat :=
  { files := fun _ => none, indexFiles := fun _ => none, closeOk := true }

/-- An environment in which the index file of directory `a` can be loaded but
its data file cannot be opened. -/
def indexOnlyEnv : Env Nat :=
  { files := fun _ => none
    indexFiles := fun n => if n = "a/ways.idx" then some demoIndex else none
    closeOk := true }

/-- The store a call leaves behind (the given store when the call aborted). -/
def storeAfter {N : Type} (r : Option (Bool × DataFile N × List N)) (df : DataFile N) :
    DataFile N :=
  match r with
  | some x => x.2.1
  | none => df

/-- What a caller observes of a call: return value and output container. -/
def observed {N : Type} (r : Option (Bool × DataFile N × List N)) : Option (Bool × List N) :=
  r.map (fun x => (x.1, x.2.2))

/-- A store with room for two cache entries, opened on directory `a`. -/
def openedStore : DataFile Nat :=
  ((DataFile.create "ways.dat" "ways.idx" 2).Open demoEnv "a").2

/-- The opened store after offset 0 has been read into the cache. -/
def warmStore : DataFile Nat :=
  storeAfter (openedStore.Get demoEnv [0] []) openedStore

/-- The warm store after a `Get` on the unreadable offset 5 has failed. -/
def failedStore : DataFile Nat :=
  storeAfter (warmStore.Get demoEnv [5] []) warmStore

/-- A store with room for one cache entry that read offset 0 from directory
`a`, was closed, and was opened again on directory `b`. -/
def swappedStore : DataFile Nat :=
  let s1 := ((DataFile.create "ways.dat" "ways.idx" 1).Open demoEnv "a").2
  let s2 := storeAfter (s1.Get demoEnv [0] []) s1
  let s3 := (s2.Close demoEnv).2
  (s3.Open demoEnv "b").2


/-! ## Notions used to state lifecycle properties -/

/-- Two stores that agree on everything a `Get` call depends on or returns; they
may differ in the observation counters and in the cursor and error flag of the
reader. -/
def DataFile.alike {N : Type} (a b : DataFile N) : Prop :=
  a.isOpen = b.isOpen ∧ a.datafile = b.datafile ∧ a.datafilename = b.datafilename ∧
    a.cache = b.cache ∧ a.scanner.file = b.scanner.file ∧
    a.index.indexfile = b.index.indexfile ∧ a.index.content = b.index.content

/-- What a caller observes of a series of `Get(offsets, data)` calls made one
after the other on a store, each call given with its prior output. -/
def DataFile.getSeries {N : Type} [Inhabited N] (env : Env N) (s : DataFile N) :
    List (List FileOffset × List N) → List (Option (Bool × List N))
  | [] => []
  | call :: rest =>
    observed (s.Get env call.1 call.2)
      :: DataFile.getSeries env (storeAfter (s.Get env call.1 call.2) s) rest

/-- The states a store can reach from its construction through `Open`, `Close`
and `Get(offsets, data)` calls, when every data file that can be opened has the
content `f` and no call runs into a read error: a `Get` either returns true or
fails because the reader cannot be reopened.  The identifier forms and the set
forms of `Get` leave the store in states the offset form reaches as well. -/
inductive ReachableOn {N : Type} [Inhabited N] (f : FileContent N) : DataFile N → Prop
  | fresh (datafile indexfile : String) (cacheSize : Nat) :
      ReachableOn f (DataFile.create datafile indexfile cacheSize)
  | afterOpen (env : Env N) (path : String) (s : DataFile N) :
      (∀ n g, env.files n = some g → g = f) → ReachableOn f s →
      ReachableOn f (s.Open env path).2
  | afterClose (env : Env N) (s : DataFile N) :
      ReachableOn f s → ReachableOn f (s.Close env).2
  | afterGet (env : Env N) (s s' : DataFile N) (os : List FileOffset) (d d' : List N) :
      (∀ n g, env.files n = some g → g = f) → ReachableOn f s →
      s.Get env os d = some (true, s', d') → ReachableOn f s'
  | afterFailedReopen (env : Env N) (s : DataFile N) (os : List FileOffset) (d : List N) :
      ReachableOn f s → s.isOpen = true → s.scanner.IsOpen = false →
      env.files s.datafilename = none →
      ReachableOn f (storeAfter (s.Get env os d) s)

/-- An environment holding directory `a` only. -/
def soloEnv : Env Nat :=
  { files := fun n => if n = "a/ways.dat" then some demoFileA else none
    indexFiles := fun n => if n = "a/ways.idx" then some demoIndex else none
    closeOk := true }

/-- A freshly constructed store with room for two cache entries. -/
def coldStore : DataFile Nat := DataFile.create "ways.dat" "ways.idx" 2

/-- The cold store opened on directory `a`, asked for the unreadable offset 5,
closed and opened on directory `a` again. -/
def reopenedStore : DataFile Nat :=
  (((storeAfter ((coldStore.Open demoEnv "a").2.Get demoEnv [5] []) coldStore).Close
    demoEnv).2.Open demoEnv "a").2

/-! ## Lemmas about the collaborators and the loop -/

variable {N : Type}

theorem Cache.GetEntry_some {c c' : Cache N} {k : FileOffset} {v : N}
    (h : c.GetEntry k = some (v, c')) :
    (k, v) ∈ c.entries ∧ c'.maxSize = c.maxSize ∧ (∀ e ∈ c'.entries, e ∈ c.entries) ∧
      c'.entries.head? = some (k, v) := by
  unfold Cache.GetEntry at h
  split at h
  · rename_i e he
    simp only [Option.some.injEq, Prod.mk.injEq] at h
    obtain ⟨hv, hc⟩ := h
    have hmem := List.mem_of_find?_eq_some he
    have hkey := List.find?_some he
    simp only [beq_iff_eq] at hkey
    have hek : e = (k, v) := by
      rw [← hkey, ← hv]
    subst hc
    refine ⟨hek ▸ hmem, rfl, ?_, ?_⟩
    · intro x hx
      simp only [List.mem_cons, List.mem_filter] at hx
      rcases hx with hx | hx
      · exact hx ▸ hmem
      · exact hx.1
    · simp [hek]
  · exact absurd h (by simp)

theorem Cache.GetEntry_of_head {c : Cache N} {k : FileOffset} {v : N}
    (h : c.entries.head? = some (k, v)) : ∃ c', c.GetEntry k = some (v, c') := by
  unfold Cache.GetEntry
  cases hc : c.entries with
  | nil => rw [hc] at h; exact absurd h (by simp)
  | cons e t =>
    rw [hc] at h
    simp only [List.head?_cons, Option.some.injEq] at h
    subst h
    simp [List.find?_cons]

theorem Cache.fill_entries [Inhabited N] (c : Cache N) (k : FileOffset) (v : N) :
    ((c.SetEntry k).setValue k v).entries =
      (k, v) :: ((c.entries.filter (fun x => x.1 != k)).take (c.maxSize - 1)) := by
  simp only [Cache.SetEntry, Cache.setValue, List.map_cons, beq_self_eq_true, if_true]
  congr 1
  refine (List.map_congr_left ?_).trans (List.map_id _)
  intro e he
  have := (List.mem_filter.mp (List.mem_of_mem_take he)).2
  simp only [bne_iff_ne, ne_eq] at this
  simp [this]

theorem Cache.mem_fill [Inhabited N] {c : Cache N} {k : FileOffset} {v : N} {e : FileOffset × N}
    (h : e ∈ ((c.SetEntry k).setValue k v).entries) : e = (k, v) ∨ (e ∈ c.entries ∧ e.1 ≠ k) := by
  rw [Cache.fill_entries] at h
  simp only [List.mem_cons] at h
  rcases h with h | h
  · exact Or.inl h
  · have := List.mem_filter.mp (List.mem_of_mem_take h)
    exact Or.inr ⟨this.1, by simpa using this.2⟩


theorem FileScanner.Close_file (env : Env N) (s : FileScanner N) : (s.Close env).2.file = none := by
  unfold FileScanner.Close
  cases h : s.file <;> simp [h]

theorem FileScanner.Read_SetPos_some [Inhabited N] {s : FileScanner N} {f : FileContent N}
    (h : s.file = some f) (o : FileOffset) :
    (s.SetPos o).Read = ((f o).value,
      { s with pos := o, hasError := (f o).error, reads := s.reads + 1 }) := by
  simp [FileScanner.Read, FileScanner.SetPos, h]

theorem FileScanner.Read_SetPos_none [Inhabited N] {s : FileScanner N}
    (h : s.file = none) (o : FileOffset) : (s.SetPos o).Read.2.HasError = true := by
  simp [FileScanner.Read, FileScanner.SetPos, FileScanner.HasError, h]

theorem DataFile.getLoop_frame [Inhabited N] (env : Env N) (os : List FileOffset) :
    ∀ (df : DataFile N) (d : List N) (b : Bool) (df' : DataFile N) (d' : List N),
      DataFile.getLoop env df os d = (b, df', d') →
      df'.isOpen = df.isOpen ∧ df'.index = df.index ∧ df'.datafilename = df.datafilename ∧
        df'.datafile = df.datafile ∧ df'.cache.maxSize = df.cache.maxSize := by
  induction os with
  | nil =>
    intro df d b df' d' h
    simp only [DataFile.getLoop, Prod.mk.injEq] at h
    obtain ⟨-, rfl, -⟩ := h
    simp
  | cons o rest ih =>
    intro df d b df' d' h
    simp only [DataFile.getLoop] at h
    split at h
    · rename_i v c1 hget
      have := ih _ _ _ _ _ h
      simpa [(Cache.GetEntry_some hget).2.1] using this
    · split at h
      · simp only [Prod.mk.injEq] at h
        obtain ⟨-, rfl, -⟩ := h
        simp [Cache.setValue, Cache.SetEntry]
      · have := ih _ _ _ _ _ h
        simpa [Cache.setValue, Cache.SetEntry] using this

theorem DataFile.getLoop_true [Inhabited N] (Q : FileOffset → N → Prop) (env : Env N)
    (os : List FileOffset) :
    ∀ (df : DataFile N) (d : List N) (df' : DataFile N) (d' : List N),
      (∀ e ∈ df.cache.entries, Q e.1 e.2) →
      (∀ f k, df.scanner.file = some f → (f k).error = false → Q k (f k).value) →
      DataFile.getLoop env df os d = (true, df', d') →
      ∃ rs, d' = d ++ rs ∧ List.Forall₂ Q os rs ∧ df'.scanner.file = df.scanner.file ∧
        (∀ e ∈ df'.cache.entries, Q e.1 e.2) := by
  induction os with
  | nil =>
    intro df d df' d' hc hf h
    simp only [DataFile.getLoop, Prod.mk.injEq, true_and] at h
    obtain ⟨rfl, rfl⟩ := h
    exact ⟨[], by simp, List.Forall₂.nil, rfl, hc⟩
  | cons o rest ih =>
    intro df d df' d' hc hf h
    simp only [DataFile.getLoop] at h
    split at h
    · rename_i v c1 hget
      obtain ⟨hmem, -, hsub, -⟩ := Cache.GetEntry_some hget
      obtain ⟨rs, hd, hall, hfile, hc'⟩ :=
        ih { df with cache := c1 } _ _ _ (fun e he => hc e (hsub e he)) hf h
      exact ⟨v :: rs, by simp [hd], List.Forall₂.cons (hc _ hmem) hall, hfile, hc'⟩
    · split at h
      · simp at h
      · rename_i herr
        cases hfl : df.scanner.file with
        | none => exact absurd (FileScanner.Read_SetPos_none hfl o) herr
        | some f =>
          rw [FileScanner.Read_SetPos_some hfl o] at h herr
          simp only [FileScanner.HasError, Bool.not_eq_true] at herr
          have hq : Q o (f o).value := hf f o hfl herr
          obtain ⟨rs, hd, hall, hfile, hc'⟩ := ih { df with
              cache := (df.cache.SetEntry o).setValue o (f o).value
              scanner := { df.scanner with pos := o, hasError := (f o).error,
                                           reads := df.scanner.reads + 1 } } _ _ _ (by
            intro e he
            rcases Cache.mem_fill he with he | he
            · rw [he]; exact hq
            · exact hc e he.1) (by
            intro g k hg hk
            exact hf g k (by simpa [hfl] using hg) hk) h
          exact ⟨(f o).value :: rs, by simp [hd], List.Forall₂.cons hq hall,
            by simpa [hfl] using hfile, hc'⟩


theorem FileScanner.Open_true {env : Env N} {s : FileScanner N} {n : String}
    (h : (s.Open env n).1 = true) :
    ∃ f, env.files n = some f ∧
      (s.Open env n).2 = { s with file := some f, pos := 0, hasError := false, opens := s.opens + 1 } := by
  unfold FileScanner.Open at h ⊢
  cases hf : env.files n with
  | none => simp [hf] at h
  | some f => exact ⟨f, rfl, rfl⟩

theorem FileScanner.Open_false {env : Env N} {s : FileScanner N} {n : String}
    (h : (s.Open env n).1 = false) :
    env.files n = none ∧
      (s.Open env n).2 = { s with file := none, hasError := true, opens := s.opens + 1 } := by
  unfold FileScanner.Open at h ⊢
  cases hf : env.files n with
  | none => exact ⟨rfl, rfl⟩
  | some f => simp [hf] at h

theorem DataFile.Get_open [Inhabited N] {env : Env N} {df : DataFile N}
    (h1 : df.isOpen = true) (h2 : df.scanner.IsOpen = true) (os : List FileOffset) (d : List N) :
    df.Get env os d = some (DataFile.getLoop env df os d) := by
  simp [DataFile.Get, h1, h2]

theorem DataFile.Get_reopen [Inhabited N] {env : Env N} {df : DataFile N}
    (h1 : df.isOpen = true) (h2 : df.scanner.IsOpen = false)
    (h3 : (df.scanner.Open env df.datafilename).1 = true) (os : List FileOffset) (d : List N) :
    df.Get env os d = some (DataFile.getLoop env
      { df with scanner := (df.scanner.Open env df.datafilename).2 } os d) := by
  simp [DataFile.Get, h1, h2, h3]

theorem DataFile.Get_reopen_failed [Inhabited N] {env : Env N} {df : DataFile N}
    (h1 : df.isOpen = true) (h2 : df.scanner.IsOpen = false)
    (h3 : (df.scanner.Open env df.datafilename).1 = false) (os : List FileOffset) (d : List N) :
    df.Get env os d
      = some (false, { df with scanner := (df.scanner.Open env df.datafilename).2 }, d) := by
  simp [DataFile.Get, h1, h2, h3]

theorem DataFile.Get_not_ready [Inhabited N] {env : Env N} {df : DataFile N}
    (h1 : df.isOpen = false) (os : List FileOffset) (d : List N) :
    df.Get env os d = none := by
  simp [DataFile.Get, h1]

/-- When the store is ready and the reader is open on `f`, or closed while the
environment can open the data file as `f`, every `Get` runs the loop with the
reader bound to `f`. -/
theorem DataFile.Get_loop [Inhabited N] (env : Env N) {df : DataFile N} {f : FileContent N}
    (h1 : df.isOpen = true)
    (hfile : df.scanner.file = some f ∨
      (df.scanner.file = none ∧ env.files df.datafilename = some f)) :
    ∃ sc : FileScanner N, sc.file = some f ∧ sc.reads = df.scanner.reads ∧
      (df.scanner.file = some f → sc = df.scanner) ∧
      (df.scanner.file = none → sc.opens = df.scanner.opens + 1) ∧
      ∀ os d, df.Get env os d = some (DataFile.getLoop env { df with scanner := sc } os d) := by
  rcases hfile with hf | ⟨hn, hf⟩
  · have h2 : df.scanner.IsOpen = true := by simp [FileScanner.IsOpen, hf]
    exact ⟨df.scanner, hf, rfl, fun _ => rfl, fun hc => by rw [hf] at hc; exact absurd hc (by simp),
      fun os d => DataFile.Get_open h1 h2 os d⟩
  · have h2 : df.scanner.IsOpen = false := by simp [FileScanner.IsOpen, hn]
    have h3 : (df.scanner.Open env df.datafilename).1 = true := by
      simp [FileScanner.Open, hf]
    have h4 : (df.scanner.Open env df.datafilename).2 =
        { df.scanner with file := some f, pos := 0, hasError := false,
                          opens := df.scanner.opens + 1 } := by
      simp [FileScanner.Open, hf]
    refine ⟨(df.scanner.Open env df.datafilename).2, by rw [h4], by rw [h4],
      fun hc => by rw [hn] at hc; exact absurd hc (by simp), fun _ => by rw [h4],
      fun os d => DataFile.Get_reopen h1 h2 h3 os d⟩

/-- A successful `Get` was served by a ready store whose reader was open, or
could be reopened, on some file. -/
theorem DataFile.Get_true_file [Inhabited N] {env : Env N} {df df' : DataFile N}
    {os : List FileOffset} {d d' : List N} (h : df.Get env os d = some (true, df', d')) :
    df.isOpen = true ∧ ∃ f, df.scanner.file = some f ∨
      (df.scanner.file = none ∧ env.files df.datafilename = some f) := by
  rcases Bool.eq_false_or_eq_true df.isOpen with h1 | h1
  swap
  · rw [DataFile.Get_not_ready h1] at h; exact absurd h (by simp)
  refine ⟨h1, ?_⟩
  cases hfl : df.scanner.file with
  | some f => exact ⟨f, Or.inl rfl⟩
  | none =>
    have h2 : df.scanner.IsOpen = false := by simp [FileScanner.IsOpen, hfl]
    rcases Bool.eq_false_or_eq_true (df.scanner.Open env df.datafilename).1 with h3 | h3
    · obtain ⟨f, hf, -⟩ := FileScanner.Open_true h3
      exact ⟨f, Or.inr ⟨rfl, hf⟩⟩
    · rw [DataFile.Get_reopen_failed h1 h2 h3] at h; simp at h

theorem forall₂_eq_map {α β : Type} (S : α → Prop) {g : α → β} {xs : List α} {ys : List β}
    (h : List.Forall₂ (fun o r => S o → g o = r) xs ys) (hs : ∀ o ∈ xs, S o) :
    ys = xs.map g := by
  induction h with
  | nil => rfl
  | cons hab _ ih =>
    rw [List.map_cons, ih (fun o ho => hs o (List.mem_cons_of_mem _ ho)),
      hab (hs _ (List.mem_cons_self _ _))]


theorem foldl_push_back (l : List Id) : l.foldl (fun acc id => acc ++ [id]) [] = l := by
  have : ∀ acc : List Id, l.foldl (fun acc id => acc ++ [id]) acc = acc ++ l := by
    induction l with
    | nil => intro acc; simp
    | cons x t ih => intro acc; simp [ih]
  simpa using this []

theorem DataFile.getLoop_single [Inhabited N] {env : Env N} {s s' : DataFile N} {o : FileOffset}
    {d d' : List N} (h : DataFile.getLoop env s [o] d = (true, s', d')) :
    ∃ v, d' = d ++ [v] ∧ s'.cache.entries.head? = some (o, v) := by
  simp only [DataFile.getLoop] at h
  split at h
  · rename_i v c1 hget
    simp only [Prod.mk.injEq, true_and] at h
    obtain ⟨rfl, rfl⟩ := h
    exact ⟨v, rfl, (Cache.GetEntry_some hget).2.2.2⟩
  · split at h
    · simp at h
    · simp only [Prod.mk.injEq, true_and] at h
      obtain ⟨rfl, rfl⟩ := h
      exact ⟨_, rfl, by simp [Cache.fill_entries]⟩

theorem DataFile.getLoop_head_hit [Inhabited N] (env : Env N) {s : DataFile N} {o : FileOffset}
    {v : N} (d : List N) (h : s.cache.entries.head? = some (o, v)) :
    ∃ c', DataFile.getLoop env s [o] d = (true, { s with cache := c' }, d ++ [v]) := by
  obtain ⟨c', hc⟩ := Cache.GetEntry_of_head h
  exact ⟨c', by simp [DataFile.getLoop, hc]⟩

theorem DataFile.GetId_true [Inhabited N] {env : Env N} {df df1 : DataFile N} {id : Id}
    {e0 e1 : N} (h : df.GetId env id e0 = some (true, df1, e1)) :
    df.isOpen = true ∧ ∃ offs, df.index.GetOffsets [id] = some offs ∧
      df.Get env offs [] = some (true, df1, [e1]) := by
  rcases Bool.eq_false_or_eq_true df.isOpen with h1 | h1
  swap
  · simp [DataFile.GetId, h1] at h
  refine ⟨h1, ?_⟩
  simp only [DataFile.GetId, h1, Bool.not_true, Bool.false_eq_true, if_false] at h
  cases hg : df.GetIds env [id] [] with
  | none => simp [hg] at h
  | some r =>
    obtain ⟨ok, s, data⟩ := r
    simp only [hg] at h
    split at h
    · rename_i hok
      simp only [Bool.and_eq_true, beq_iff_eq] at hok
      simp only [Option.some.injEq, Prod.mk.injEq, true_and] at h
      obtain ⟨rfl, he⟩ := h
      obtain ⟨rfl, hlen⟩ := hok
      have hdata : data = [e1] := by
        match data, hlen, he with
        | [x], _, he => simpa using he
      subst hdata
      simp only [DataFile.GetIds, h1, Bool.not_true, Bool.false_eq_true, if_false] at hg
      cases ho : df.index.GetOffsets [id] with
      | none => simp [ho] at hg
      | some offs => exact ⟨offs, rfl, by simpa [ho] using hg⟩
    · simp at h

theorem Cache.lookup_of_head {c : Cache N} {k : FileOffset} {v : N}
    (h : c.entries.head? = some (k, v)) : c.lookup k = some v := by
  unfold Cache.lookup
  cases hc : c.entries with
  | nil => rw [hc] at h; simp at h
  | cons e t =>
    rw [hc] at h
    simp only [List.head?_cons, Option.some.injEq] at h
    subst h
    simp [List.find?_cons]

theorem DataFile.getLoop_append [Inhabited N] (env : Env N) (xs ys : List FileOffset) :
    ∀ (s : DataFile N) (d : List N) (s1 : DataFile N) (d1 : List N),
      DataFile.getLoop env s xs d = (true, s1, d1) →
      DataFile.getLoop env s (xs ++ ys) d = DataFile.getLoop env s1 ys d1 := by
  induction xs with
  | nil =>
    intro s d s1 d1 h
    simp only [DataFile.getLoop, Prod.mk.injEq, true_and] at h
    obtain ⟨rfl, rfl⟩ := h
    rfl
  | cons o rest ih =>
    intro s d s1 d1 h
    simp only [DataFile.getLoop, List.cons_append] at h ⊢
    split at h
    · exact ih _ _ _ _ h
    · split at h
      · simp at h
      · rename_i herr
        rw [if_neg herr]
        exact ih _ _ _ _ h

theorem DataFile.getLoop_miss_error [Inhabited N] (env : Env N) {s : DataFile N}
    {f : FileContent N} {o : FileOffset} (hfile : s.scanner.file = some f)
    (hmiss : s.cache.GetEntry o = none) (herr : (f o).error = true)
    (rest : List FileOffset) (d : List N) :
    DataFile.getLoop env s (o :: rest) d =
      (false, { s with
        cache := (s.cache.SetEntry o).setValue o (f o).value
        scanner := { s.scanner with file := none, pos := o, hasError := true,
                                    reads := s.scanner.reads + 1 } }, d) := by
  simp [DataFile.getLoop, hmiss, FileScanner.Read_SetPos_some hfile, FileScanner.HasError, herr,
    FileScanner.Close, hfile]

/-- C2: on a ready store, when the index reports failure for the identifiers
(given as a sequence, or as a set converted to a sequence), the identifier
forms of `Get` return false and hand back the output container and the whole
store (cache, file reader, index) exactly as they were. -/
theorem DataFile.GetIds_resolve_all_or_nothing [Inhabited N] (env : Env N) (df : DataFile N)
    (d : List N) (hready : df.isOpen = true) :
    (∀ ids : List Id, df.index.GetOffsets ids = none →
        df.GetIds env ids d = some (false, df, d)) ∧
      (∀ ids : StdSet, df.index.GetOffsets ids.elems = none →
        df.GetIdSet env ids d = some (false, df, d)) := by
  constructor
  · intro ids hres
    simp [DataFile.GetIds, hready, hres]
  · intro ids hres
    simp [DataFile.GetIdSet, hready, foldl_push_back, hres]

/-- C2 (witness): identifier 3 is not in the demonstration index, so the
sequence `[1, 3]` and the set `{1, 3}` both fail to resolve on the warm store. -/
theorem DataFile.GetIds_resolve_all_or_nothing_witness :
    warmStore.isOpen = true ∧ warmStore.index.GetOffsets [1, 3] = none ∧
      warmStore.GetIds demoEnv [1, 3] [4] = some (false, warmStore, [4]) ∧
      warmStore.GetIdSet demoEnv ⟨[1, 3], by decide⟩ [4] = some (false, warmStore, [4]) :=
  ⟨rfl, rfl,
    (DataFile.GetIds_resolve_all_or_nothing demoEnv warmStore [4] rfl).1 [1, 3] rfl,
    (DataFile.GetIds_resolve_all_or_nothing demoEnv warmStore [4] rfl).2 ⟨[1, 3], by decide⟩ rfl⟩

/-- C3 (evaluation at the failing input): offset 5 of the first data file is
unreadable.  The first `Get([5])` on the warm store reports failure, yet leaves
the half-filled slot in the cache; the next `Get([5])` finds that slot and
returns the value 99 as a success although no decode of offset 5 ever
completed. -/
theorem DataFile.Get_serves_broken_record :
    warmStore.isOpen = true ∧ (demoFileA 5).error = true ∧
      observed (warmStore.Get demoEnv [5] []) = some (false, []) ∧
      failedStore.cache.lookup 5 = some 99 ∧
      observed (failedStore.Get demoEnv [5] []) = some (true, [99]) :=
  ⟨rfl, rfl, rfl, rfl, rfl⟩

/-- C4: when `Get(id, entry)` succeeds, an immediately following `Get(id, entry)`
succeeds as well, in any environment, yields the same record, and leaves the
file reader exactly as it was: no reopen, no seek, no decode (the read count is
unchanged). -/
theorem DataFile.GetId_cache_transparent [Inhabited N] (env1 env2 : Env N) (df df1 : DataFile N)
    (id : Id) (e0 e1 e : N) (h : df.GetId env1 id e0 = some (true, df1, e1)) :
    ∃ df2, df1.GetId env2 id e = some (true, df2, e1) ∧ df2.scanner = df1.scanner ∧
      df2.scanner.reads = df1.scanner.reads := by
  obtain ⟨h1, offs, hoffs, hget⟩ := DataFile.GetId_true h
  obtain ⟨-, f, hfile⟩ := DataFile.Get_true_file hget
  obtain ⟨sc, hf, -, -, -, hrun⟩ := DataFile.Get_loop env1 h1 hfile
  rw [hrun] at hget
  have hloop : DataFile.getLoop env1 { df with scanner := sc } offs [] = (true, df1, [e1]) := by
    simpa using hget
  obtain ⟨rs, hd, hall, hfl, -⟩ := DataFile.getLoop_true (fun _ _ => True) env1 offs
    { df with scanner := sc } [] df1 [e1] (fun _ _ => trivial) (fun _ _ _ _ => trivial) hloop
  obtain ⟨hopen1, hidx, -, -, -⟩ := DataFile.getLoop_frame env1 offs _ _ _ _ _ hloop
  have hlen : offs.length = 1 := by
    have := hall.length_eq
    simp only [List.nil_append] at hd
    rw [← hd] at this
    simpa using this
  obtain ⟨o, rfl⟩ := List.length_eq_one.mp hlen
  obtain ⟨v, hv, hhead⟩ := DataFile.getLoop_single hloop
  have hve : v = e1 := by simpa using hv.symm
  subst hve
  have hready1 : df1.isOpen = true := by rw [hopen1]; exact h1
  have hsc1 : df1.scanner.IsOpen = true := by
    simp only [FileScanner.IsOpen, hfl, hf, Option.isSome_some]
  obtain ⟨c', hc'⟩ := DataFile.getLoop_head_hit env2 [] hhead
  refine ⟨{ df1 with cache := c' }, ?_, rfl, rfl⟩
  have hidx1 : df1.index.GetOffsets [id] = some [o] := by rw [hidx]; exact hoffs
  simp [DataFile.GetId, DataFile.GetIds, hready1, hidx1, DataFile.Get_open hready1 hsc1, hc']

/-- C4 (witness): identifier 2 resolves to offset 128 on the warm store; the
first `Get(2)` decodes it, the second is served while no file can be opened. -/
theorem DataFile.GetId_cache_transparent_witness :
    warmStore.GetId demoEnv 2 0
        = some (true, storeAfter (warmStore.GetIds demoEnv [2] []) warmStore, 11) ∧
      ∃ df2, (storeAfter (warmStore.GetIds demoEnv [2] []) warmStore).GetId offlineEnv 2 0
          = some (true, df2, 11) ∧
        df2.scanner = (storeAfter (warmStore.GetIds demoEnv [2] []) warmStore).scanner ∧
        df2.scanner.reads
          = (storeAfter (warmStore.GetIds demoEnv [2] []) warmStore).scanner.reads :=
  ⟨rfl, DataFile.GetId_cache_transparent demoEnv offlineEnv warmStore _ 2 0 11 0 rfl⟩

/-- C6: let `Get` succeed on the offsets `pre`, leaving the store `s` with the
reader on file `f`, and let `o` be uncached in `s` and unreadable in `f`.  Then
`Get` on `pre` followed by `o` and any further offsets returns false with one
and the same store and output whatever follows `o`: the output holds just the
records produced for `pre`, exactly one more decode was performed, the reader is
closed, the ready flag is still set, and the cache holds the slot reserved for
`o` with the value the interrupted decode left in it. -/
theorem DataFile.Get_read_error [Inhabited N] (env : Env N) (df s : DataFile N)
    (pre : List FileOffset) (o : FileOffset) (d d1 : List N) (f : FileContent N)
    (hpre : df.Get env pre d = some (true, s, d1))
    (hfile : s.scanner.file = some f)
    (hmiss : s.cache.GetEntry o = none)
    (herr : (f o).error = true) :
    ∃ df', (∀ post, df.Get env (pre ++ o :: post) d = some (false, df', d1)) ∧
      df'.scanner.IsOpen = false ∧ df'.isOpen = true ∧
      df'.cache.lookup o = some (f o).value ∧
      df'.scanner.reads = s.scanner.reads + 1 ∧
      df'.scanner.pos = o := by
  obtain ⟨h1, g, hg⟩ := DataFile.Get_true_file hpre
  obtain ⟨sc, -, -, -, -, hrun⟩ := DataFile.Get_loop env h1 hg
  rw [hrun] at hpre
  have hloop : DataFile.getLoop env { df with scanner := sc } pre d = (true, s, d1) := by
    simpa using hpre
  obtain ⟨hopen, -, -, -, -⟩ := DataFile.getLoop_frame env pre _ _ _ _ _ hloop
  refine ⟨{ s with
      cache := (s.cache.SetEntry o).setValue o (f o).value
      scanner := { s.scanner with file := none, pos := o, hasError := true,
                                  reads := s.scanner.reads + 1 } }, ?_, rfl, ?_, ?_, rfl, rfl⟩
  · intro post
    rw [hrun, DataFile.getLoop_append env pre (o :: post) _ _ _ _ hloop,
      DataFile.getLoop_miss_error env hfile hmiss herr]
  · rw [hopen]; exact h1
  · exact Cache.lookup_of_head (by simp [Cache.fill_entries])

/-- C6 (witness): on the warm store offset 0 is cached, offset 5 is neither
cached nor readable; `Get([0, 5, 128])` stops at offset 5. -/
theorem DataFile.Get_read_error_witness :
    warmStore.Get demoEnv [0] [3]
        = some (true, storeAfter (warmStore.Get demoEnv [0] [3]) warmStore, [3, 7]) ∧
      (storeAfter (warmStore.Get demoEnv [0] [3]) warmStore).scanner.file = some demoFileA ∧
      (storeAfter (warmStore.Get demoEnv [0] [3]) warmStore).cache.GetEntry 5 = none ∧
      (demoFileA 5).error = true ∧
      ∃ df', (∀ post, warmStore.Get demoEnv ([0] ++ 5 :: post) [3] = some (false, df', [3, 7])) ∧
        df'.scanner.IsOpen = false ∧ df'.isOpen = true ∧
        df'.cache.lookup 5 = some (demoFileA 5).value ∧
        df'.scanner.reads
          = (storeAfter (warmStore.Get demoEnv [0] [3]) warmStore).scanner.reads + 1 ∧
        df'.scanner.pos = 5 :=
  ⟨rfl, rfl, rfl, rfl,
    DataFile.Get_read_error demoEnv warmStore
      (storeAfter (warmStore.Get demoEnv [0] [3]) warmStore) [0] 5 [3] [3, 7] demoFileA
      rfl rfl rfl rfl⟩

/-- C8: `Open(path)` returns true exactly when opening the file reader on
`path + "/" + datafile` succeeds and loading the index from `path` succeeds;
the ready flag after the call equals the returned value, and the complete data
file name is bound to `path + "/" + datafile`. -/
theorem DataFile.Open_result (env : Env N) (df : DataFile N) (path : String) :
    ((df.Open env path).1 = true ↔
        ((df.scanner.Open env (path ++ "/" ++ df.datafile)).1 = true ∧
          (df.index.Load env path).1 = true)) ∧
      (df.Open env path).2.isOpen = (df.Open env path).1 ∧
      (df.Open env path).2.datafilename = path ++ "/" ++ df.datafile := by
  unfold DataFile.Open
  rcases Bool.eq_false_or_eq_true (df.scanner.Open env (path ++ "/" ++ df.datafile)).1 with hs | hs
  · simp [hs]
  · simp [hs]

/-- C9 (amended): `Open(path)` always attempts to open the file reader and
attempts to load the index only when the reader opened.  When the reader opens
and the index load fails, `Open` returns false and the reader stays open.  When
the reader fails to open, `Open` returns false, no load is attempted and the
index is left exactly as it was. -/
theorem DataFile.Open_half_success (env : Env N) (df : DataFile N) (path : String) :
    (df.Open env path).2.scanner = (df.scanner.Open env (path ++ "/" ++ df.datafile)).2 ∧
      (df.Open env path).2.scanner.opens = df.scanner.opens + 1 ∧
      ((df.scanner.Open env (path ++ "/" ++ df.datafile)).1 = true →
        (df.index.Load env path).1 = false →
        (df.Open env path).1 = false ∧ (df.Open env path).2.scanner.IsOpen = true ∧
          (df.Open env path).2.index.loads = df.index.loads + 1) ∧
      ((df.scanner.Open env (path ++ "/" ++ df.datafile)).1 = false →
        (df.Open env path).1 = false ∧ (df.Open env path).2.index = df.index) := by
  have hopens : (df.scanner.Open env (path ++ "/" ++ df.datafile)).2.opens
      = df.scanner.opens + 1 := by
    unfold FileScanner.Open
    cases env.files (path ++ "/" ++ df.datafile) <;> rfl
  have hloads : (df.index.Load env path).2.loads = df.index.loads + 1 := by
    unfold DataIndex.Load
    cases env.indexFiles (path ++ "/" ++ df.index.indexfile) <;> rfl
  have hscan : (df.Open env path).2.scanner
      = (df.scanner.Open env (path ++ "/" ++ df.datafile)).2 := by
    unfold DataFile.Open
    rcases Bool.eq_false_or_eq_true (df.scanner.Open env (path ++ "/" ++ df.datafile)).1
      with hs | hs <;> simp [hs]
  refine ⟨hscan, by rw [hscan, hopens], ?_, ?_⟩
  · intro hs hl
    obtain ⟨f, -, hf⟩ := FileScanner.Open_true hs
    refine ⟨?_, ?_, ?_⟩
    · simp [DataFile.Open, hs, hl]
    · rw [hscan, hf]; rfl
    · simp [DataFile.Open, hs, hloads]
  · intro hs
    simp [DataFile.Open, hs]

/-- C9 (witness): a store that was opened on directory `a` is opened again while
only the index file is available, and a fresh store is opened on a directory
whose data file is available while its index file is not. -/
theorem DataFile.Open_half_success_witness :
    (openedStore.scanner.Open indexOnlyEnv ("a" ++ "/" ++ openedStore.datafile)).1 = false ∧
      (openedStore.Open indexOnlyEnv "a").1 = false ∧
      (openedStore.Open indexOnlyEnv "a").2.index = openedStore.index ∧
      ((DataFile.create "ways.dat" "none.idx" 2 : DataFile Nat).scanner.Open demoEnv
        ("a" ++ "/" ++ (DataFile.create "ways.dat" "none.idx" 2 : DataFile Nat).datafile)).1
          = true ∧
      ((DataFile.create "ways.dat" "none.idx" 2 : DataFile Nat).index.Load demoEnv "a").1
          = false ∧
      ((DataFile.create "ways.dat" "none.idx" 2 : DataFile Nat).Open demoEnv "a").1 = false ∧
      ((DataFile.create "ways.dat" "none.idx" 2 : DataFile Nat).Open demoEnv "a").2.scanner.IsOpen
          = true :=
  ⟨rfl, ((DataFile.Open_half_success indexOnlyEnv openedStore "a").2.2.2 rfl).1,
    ((DataFile.Open_half_success indexOnlyEnv openedStore "a").2.2.2 rfl).2,
    rfl, rfl,
    ((DataFile.Open_half_success demoEnv (DataFile.create "ways.dat" "none.idx" 2) "a").2.2.1
      rfl rfl).1,
    ((DataFile.Open_half_success demoEnv (DataFile.create "ways.dat" "none.idx" 2) "a").2.2.1
      rfl rfl).2.1⟩

/-- C9 (counterexample): a fresh store is opened on directory `a` while its
index file can be loaded and its data file cannot be opened.  `Open` returns
false without attempting the index load: the load count stays 0 and the index
holds no content, although loading would have succeeded. -/
theorem DataFile.Open_skips_index_counterexample :
    (((DataFile.create "ways.dat" "ways.idx" 2 : DataFile Nat).index.Load indexOnlyEnv "a").1
        = true) ∧
      ((DataFile.create "ways.dat" "ways.idx" 2 : DataFile Nat).Open indexOnlyEnv "a").1
        = false ∧
      ((DataFile.create "ways.dat" "ways.idx" 2 : DataFile Nat).Open indexOnlyEnv "a").2.index.loads
        = 0 ∧
      ((DataFile.create "ways.dat" "ways.idx" 2 : DataFile Nat).Open
        indexOnlyEnv "a").2.index.content.isSome = false :=
  ⟨rfl, rfl, rfl, rfl⟩

/-- C10: `Close()` always clears the ready flag; it closes the file reader when
the reader is open and leaves it untouched otherwise; it returns false exactly
when the reader was open and closing it reported an error, so it returns true
when the reader is already closed. -/
theorem DataFile.Close_result (env : Env N) (df : DataFile N) :
    (df.Close env).2.isOpen = false ∧
      (df.scanner.IsOpen = true → (df.Close env).2.scanner = (df.scanner.Close env).2) ∧
      (df.scanner.IsOpen = false → (df.Close env).2.scanner = df.scanner) ∧
      ((df.Close env).1 = false ↔
        (df.scanner.IsOpen = true ∧ (df.scanner.Close env).1 = false)) ∧
      (df.scanner.IsOpen = false → (df.Close env).1 = true) := by
  unfold DataFile.Close
  rcases Bool.eq_false_or_eq_true df.scanner.IsOpen with hs | hs
  · rcases Bool.eq_false_or_eq_true (df.scanner.Close env).1 with hc | hc <;> simp [hs, hc]
  · simp [hs]

/-- C10 (witness): the warm store has an open reader, the failed store a closed
one; closing is evaluated where the underlying close reports an error. -/
theorem DataFile.Close_result_witness :
    warmStore.scanner.IsOpen = true ∧ failedStore.scanner.IsOpen = false ∧
      (warmStore.Close { demoEnv with closeOk := false }).2.scanner
        = (warmStore.scanner.Close { demoEnv with closeOk := false }).2 ∧
      (failedStore.Close { demoEnv with closeOk := false }).2.scanner = failedStore.scanner ∧
      (failedStore.Close { demoEnv with closeOk := false }).1 = true :=
  ⟨rfl, rfl,
    (DataFile.Close_result { demoEnv with closeOk := false } warmStore).2.1 rfl,
    (DataFile.Close_result { demoEnv with closeOk := false } failedStore).2.2.1 rfl,
    (DataFile.Close_result { demoEnv with closeOk := false } failedStore).2.2.2.2 rfl⟩



/-! ## Close, the singular form and the lifecycle -/

theorem DataFile.Close_store (env : Env N) (df : DataFile N) :
    (df.Close env).2
      = { df with isOpen := false, scanner := { df.scanner with file := none } } := by
  unfold DataFile.Close FileScanner.IsOpen FileScanner.Close
  cases hf : df.scanner.file with
  | none =>
    have : df.scanner = { df.scanner with file := none } := by
      cases hs : df.scanner with
      | mk file pos hasError reads opens =>
        rw [hs] at hf
        simp only at hf
        subst hf
        rfl
    simp only [Option.isSome_none, Bool.false_eq_true, if_false]
    rw [← this]
  | some g => simp

/-- C11: `Close()` changes nothing but the ready flag, which it clears, and the
handle of the file reader, which it releases: the index, the cache, both data
file names and every other part of the reader are exactly as before. -/
theorem DataFile.Close_frame (env : Env N) (df : DataFile N) :
    (df.Close env).2 = { df with isOpen := false, scanner := { df.scanner with file := none } } ∧
      (df.Close env).2.index = df.index ∧ (df.Close env).2.cache = df.cache ∧
      (df.Close env).2.datafilename = df.datafilename ∧
      (df.Close env).2.datafile = df.datafile := by
  rw [DataFile.Close_store]
  exact ⟨rfl, rfl, rfl, rfl, rfl⟩

theorem DataFile.Get_total [Inhabited N] (env : Env N) {df : DataFile N}
    (hready : df.isOpen = true) (os : List FileOffset) (d : List N) :
    ∃ r, df.Get env os d = some r := by
  rcases Bool.eq_false_or_eq_true df.scanner.IsOpen with h2 | h2
  · exact ⟨_, DataFile.Get_open hready h2 os d⟩
  · rcases Bool.eq_false_or_eq_true (df.scanner.Open env df.datafilename).1 with h3 | h3
    · exact ⟨_, DataFile.Get_reopen hready h2 h3 os d⟩
    · exact ⟨_, DataFile.Get_reopen_failed hready h2 h3 os d⟩

theorem DataFile.Get_true_length [Inhabited N] {env : Env N} {df df' : DataFile N}
    {os : List FileOffset} {d d' : List N} (h : df.Get env os d = some (true, df', d')) :
    d'.length = d.length + os.length := by
  obtain ⟨h1, f, hfile⟩ := DataFile.Get_true_file h
  obtain ⟨sc, -, -, -, -, hrun⟩ := DataFile.Get_loop env h1 hfile
  rw [hrun] at h
  have hloop : DataFile.getLoop env { df with scanner := sc } os d = (true, df', d') := by
    simpa using h
  obtain ⟨rs, hd, hall, -, -⟩ := DataFile.getLoop_true (fun _ _ => True) env os
    { df with scanner := sc } d df' d' (fun _ _ => trivial) (fun _ _ _ _ => trivial) hloop
  rw [hd, List.length_append, hall.length_eq]

theorem DataFile.GetIds_resolved [Inhabited N] (env : Env N) {df : DataFile N}
    (hready : df.isOpen = true) {ids : List Id} {offs : List FileOffset}
    (hres : df.index.GetOffsets ids = some offs) (d : List N) :
    df.GetIds env ids d = df.Get env offs d := by
  simp [DataFile.GetIds, hready, hres]

theorem DataFile.GetIds_unresolved [Inhabited N] (env : Env N) {df : DataFile N}
    (hready : df.isOpen = true) {ids : List Id}
    (hres : df.index.GetOffsets ids = none) (d : List N) :
    df.GetIds env ids d = some (false, df, d) := by
  simp [DataFile.GetIds, hready, hres]

/-- C12: on a ready store the sequence form `Get([id], data)` with a fresh empty
container always returns; `Get(id, entry)` returns true exactly when that call
returned true with exactly one record, and then `entry` is that record;
otherwise it returns false and `entry` keeps its value.  In particular it
returns false when the identifier does not resolve and when it resolves to a
number of offsets other than one. -/
theorem DataFile.GetId_singular [Inhabited N] (env : Env N) (df : DataFile N) (id : Id) (e : N)
    (hready : df.isOpen = true) :
    ∃ ok s data, df.GetIds env [id] [] = some (ok, s, data) ∧
      ((ok = true ∧ data.length = 1) →
        ∃ r, data = [r] ∧ df.GetId env id e = some (true, s, r)) ∧
      (¬ (ok = true ∧ data.length = 1) → df.GetId env id e = some (false, s, e)) ∧
      (df.index.GetOffsets [id] = none → ok = false) ∧
      (∀ offs, df.index.GetOffsets [id] = some offs → offs.length ≠ 1 →
        ¬ (ok = true ∧ data.length = 1)) := by
  have hsome : ∃ r, df.GetIds env [id] [] = some r := by
    cases hres : df.index.GetOffsets [id] with
    | none => exact ⟨_, DataFile.GetIds_unresolved env hready hres []⟩
    | some offs =>
      rw [DataFile.GetIds_resolved env hready hres]
      exact DataFile.Get_total env hready offs []
  obtain ⟨⟨ok, s, data⟩, hr⟩ := hsome
  refine ⟨ok, s, data, hr, ?_, ?_, ?_, ?_⟩
  · rintro ⟨hok, hlen⟩
    obtain ⟨r, rfl⟩ := List.length_eq_one.mp hlen
    exact ⟨r, rfl, by simp [DataFile.GetId, hready, hr, hok]⟩
  · intro hnot
    have : (ok && data.length == 1) = false := by
      rcases Bool.eq_false_or_eq_true (ok && data.length == 1) with hb | hb
      · exact absurd (by simpa using hb) hnot
      · exact hb
    simp [DataFile.GetId, hready, hr, this]
  · intro hres
    rw [DataFile.GetIds_unresolved env hready hres] at hr
    simp only [Option.some.injEq, Prod.mk.injEq] at hr
    exact hr.1.symm
  · rintro offs hres hne ⟨hok, hlen⟩
    rw [DataFile.GetIds_resolved env hready hres, hok] at hr
    have := DataFile.Get_true_length hr
    simp only [List.length_nil, Nat.zero_add] at this
    exact hne (this.symm.trans hlen)

/-- C12 (witness): on the warm store identifier 2 resolves to offset 128 and
`Get(2)` yields record 11, while identifier 3 does not resolve and `Get(3)`
returns false and keeps the entry 0. -/
theorem DataFile.GetId_singular_witness :
    warmStore.isOpen = true ∧
      (∃ s, warmStore.GetIds demoEnv [2] [] = some (true, s, [11]) ∧
        warmStore.GetId demoEnv 2 0 = some (true, s, 11)) ∧
      warmStore.index.GetOffsets [3] = none ∧
      (∃ s, warmStore.GetId demoEnv 3 0 = some (false, s, 0)) := by
  obtain ⟨ok, s, data, hr, hone, -, -, -⟩ := DataFile.GetId_singular demoEnv warmStore 2 0 rfl
  obtain ⟨ok3, s3, data3, -, -, hother, hunres, -⟩ :=
    DataFile.GetId_singular demoEnv warmStore 3 0 rfl
  have hrun : warmStore.GetIds demoEnv [2] []
      = some (true, storeAfter (warmStore.GetIds demoEnv [2] []) warmStore, [11]) := rfl
  rw [hrun] at hr
  simp only [Option.some.injEq, Prod.mk.injEq] at hr
  obtain ⟨hok, hs, hdata⟩ := hr
  obtain ⟨r, hr1, hr2⟩ := hone ⟨hok.symm, by rw [← hdata]; rfl⟩
  have hr11 : r = 11 := by
    rw [← hdata] at hr1
    simpa using hr1.symm
  subst hr11
  refine ⟨rfl, ⟨s, ?_, hr2⟩, rfl, s3, ?_⟩
  · rw [hrun, hs]
  · exact hother (fun h => by rw [hunres rfl] at h; exact absurd h.1 (by simp))

/-- C13: on a ready store whose reader is closed, `Get(offsets, data)` first
reopens the reader on `datafilename`, the name `Open` computed from its path
and which `Close` and `Get` never change.  When the reopen fails the call
returns false; output, cache and read count are untouched and only the reader
records the failed attempt.  When it succeeds the call gives exactly what it
gives on the same store with the reader already open on that file. -/
theorem DataFile.Get_lazy_reopen [Inhabited N] (env : Env N) (df : DataFile N)
    (os : List FileOffset) (d : List N)
    (hready : df.isOpen = true) (hclosed : df.scanner.IsOpen = false) :
    ((df.scanner.Open env df.datafilename).1 = false →
        df.Get env os d
          = some (false, { df with scanner := (df.scanner.Open env df.datafilename).2 }, d) ∧
        (df.scanner.Open env df.datafilename).2.reads = df.scanner.reads) ∧
      ((df.scanner.Open env df.datafilename).1 = true →
        (df.scanner.Open env df.datafilename).2.IsOpen = true ∧
        df.Get env os d
          = ({ df with scanner := (df.scanner.Open env df.datafilename).2 } :
              DataFile N).Get env os d) ∧
      (∀ (s : DataFile N) (env0 : Env N) (path : String),
        (s.Open env0 path).2.datafilename = path ++ "/" ++ s.datafile ∧
        (s.Close env0).2.datafilename = s.datafilename ∧
        ∀ r, s.Get env0 os d = some r → r.2.1.datafilename = s.datafilename) := by
  refine ⟨?_, ?_, ?_⟩
  · intro h3
    refine ⟨DataFile.Get_reopen_failed hready hclosed h3 os d, ?_⟩
    rw [(FileScanner.Open_false h3).2]
  · intro h3
    obtain ⟨f, -, hf⟩ := FileScanner.Open_true h3
    have hop : (df.scanner.Open env df.datafilename).2.IsOpen = true := by
      rw [hf]; rfl
    refine ⟨hop, ?_⟩
    rw [DataFile.Get_reopen hready hclosed h3,
      @DataFile.Get_open N _ env { df with scanner := (df.scanner.Open env df.datafilename).2 }
        hready hop]
  · intro s env0 path
    refine ⟨?_, ?_, ?_⟩
    · unfold DataFile.Open
      rcases Bool.eq_false_or_eq_true (s.scanner.Open env0 (path ++ "/" ++ s.datafile)).1
        with hs | hs <;> simp [hs]
    · unfold DataFile.Close
      rcases Bool.eq_false_or_eq_true s.scanner.IsOpen with hs | hs <;> simp [hs]
    · intro r hr
      rcases Bool.eq_false_or_eq_true s.isOpen with h1 | h1
      swap
      · rw [DataFile.Get_not_ready h1] at hr; exact absurd hr (by simp)
      rcases Bool.eq_false_or_eq_true s.scanner.IsOpen with h2 | h2
      · rw [DataFile.Get_open h1 h2] at hr
        obtain ⟨b, s', d'⟩ := r
        exact (DataFile.getLoop_frame env0 os _ _ _ _ _ (Option.some.inj hr)).2.2.1
      · rcases Bool.eq_false_or_eq_true (s.scanner.Open env0 s.datafilename).1 with h3 | h3
        · rw [DataFile.Get_reopen h1 h2 h3] at hr
          obtain ⟨b, s', d'⟩ := r
          exact (DataFile.getLoop_frame env0 os _ _ _ _ _ (Option.some.inj hr)).2.2.1
        · rw [DataFile.Get_reopen_failed h1 h2 h3] at hr
          rw [← Option.some.inj hr]

/-- C13 (witness): the failed store is ready with a closed reader; the reopen
fails while no file can be opened and succeeds in the demonstration
environment. -/
theorem DataFile.Get_lazy_reopen_witness :
    failedStore.isOpen = true ∧ failedStore.scanner.IsOpen = false ∧
      (failedStore.scanner.Open offlineEnv failedStore.datafilename).1 = false ∧
      failedStore.Get offlineEnv [0, 128] [3]
        = some (false, { failedStore with
            scanner := (failedStore.scanner.Open offlineEnv failedStore.datafilename).2 }, [3]) ∧
      (failedStore.scanner.Open demoEnv failedStore.datafilename).1 = true ∧
      failedStore.Get demoEnv [0, 128] [3]
        = ({ failedStore with
            scanner := (failedStore.scanner.Open demoEnv failedStore.datafilename).2 } :
              DataFile Nat).Get demoEnv [0, 128] [3] :=
  ⟨rfl, rfl, rfl,
    ((DataFile.Get_lazy_reopen offlineEnv failedStore [0, 128] [3] rfl rfl).1 rfl).1, rfl,
    ((DataFile.Get_lazy_reopen demoEnv failedStore [0, 128] [3] rfl rfl).2.1 rfl).2⟩

/-- C14: on a store whose ready flag is false every form of `Get` stops at its
`assert(isOpen)` (no result, no access to index, cache or file); on a store
whose ready flag is set every form of `Get` passes the assertion and
returns. -/
theorem DataFile.Get_requires_ready [Inhabited N] (env : Env N) (df : DataFile N)
    (os : List FileOffset) (oset : StdSet) (ids : List Id) (idset : StdSet) (id : Id)
    (e : N) (d : List N) :
    (df.isOpen = false →
        df.Get env os d = none ∧ df.GetSet env oset d = none ∧ df.GetIds env ids d = none ∧
          df.GetIdSet env idset d = none ∧ df.GetId env id e = none) ∧
      (df.isOpen = true →
        (df.Get env os d).isSome = true ∧ (df.GetSet env oset d).isSome = true ∧
          (df.GetIds env ids d).isSome = true ∧ (df.GetIdSet env idset d).isSome = true ∧
          (df.GetId env id e).isSome = true) := by
  constructor
  · intro h
    simp [DataFile.Get, DataFile.GetSet, DataFile.GetIds, DataFile.GetIdSet, DataFile.GetId, h]
  · intro h
    have hget : ∀ os d, (df.Get env os d).isSome = true := by
      intro os d
      obtain ⟨r, hr⟩ := DataFile.Get_total env h os d
      rw [hr]; rfl
    have hids : ∀ ids d, (df.GetIds env ids d).isSome = true := by
      intro ids d
      cases hres : df.index.GetOffsets ids with
      | none => rw [DataFile.GetIds_unresolved env h hres]; rfl
      | some offs => rw [DataFile.GetIds_resolved env h hres]; exact hget offs d
    refine ⟨hget os d, ?_, hids ids d, ?_, ?_⟩
    · unfold DataFile.GetSet
      simp only [h, Bool.not_true, Bool.false_eq_true, if_false]
      split <;> [split; skip] <;> rfl
    · have := hids (idset.elems.foldl (fun acc id => acc ++ [id]) []) d
      simpa [DataFile.GetIdSet, DataFile.GetIds, h] using this
    · have := hids [id] []
      obtain ⟨⟨ok, s, data⟩, hr⟩ := Option.isSome_iff_exists.mp this
      simp only [DataFile.GetId, h, Bool.not_true, Bool.false_eq_true, if_false, hr]
      split <;> rfl

/-- C14 (witness): the freshly constructed store is not ready, the warm store
is. -/
theorem DataFile.Get_requires_ready_witness :
    (DataFile.create "ways.dat" "ways.idx" 2 : DataFile Nat).isOpen = false ∧
      (DataFile.create "ways.dat" "ways.idx" 2 : DataFile Nat).Get demoEnv [0] [] = none ∧
      (DataFile.create "ways.dat" "ways.idx" 2 : DataFile Nat).GetId demoEnv 1 0 = none ∧
      warmStore.isOpen = true ∧ (warmStore.Get demoEnv [0] []).isSome = true ∧
      (warmStore.GetId demoEnv 1 0).isSome = true :=
  ⟨rfl,
    ((DataFile.Get_requires_ready demoEnv (DataFile.create "ways.dat" "ways.idx" 2)
      [0] ⟨[], by decide⟩ [1] ⟨[], by decide⟩ 1 0 []).1 rfl).1,
    ((DataFile.Get_requires_ready demoEnv (DataFile.create "ways.dat" "ways.idx" 2)
      [0] ⟨[], by decide⟩ [1] ⟨[], by decide⟩ 1 0 []).1 rfl).2.2.2.2,
    rfl,
    ((DataFile.Get_requires_ready demoEnv warmStore
      [0] ⟨[], by decide⟩ [1] ⟨[], by decide⟩ 1 0 []).2 rfl).1,
    ((DataFile.Get_requires_ready demoEnv warmStore
      [0] ⟨[], by decide⟩ [1] ⟨[], by decide⟩ 1 0 []).2 rfl).2.2.2.2⟩

/-! ## Identifier and set forms, output on failure -/

theorem DataFile.getSetLoop_eq [Inhabited N] (env : Env N) (os : List FileOffset) :
    ∀ (df : DataFile N) (d : List N),
      DataFile.getSetLoop env df os d = DataFile.getLoop env df os d := by
  induction os with
  | nil => intro df d; rfl
  | cons o rest ih =>
    intro df d
    simp only [DataFile.getSetLoop, DataFile.getLoop, ih]

theorem DataFile.getLoop_readable [Inhabited N] (env : Env N) (f : FileContent N)
    (os : List FileOffset) :
    ∀ (s : DataFile N) (d : List N), s.scanner.file = some f →
      (∀ o ∈ os, (f o).error = false) →
      ∃ s' rs, DataFile.getLoop env s os d = (true, s', d ++ rs) ∧ rs.length = os.length := by
  induction os with
  | nil =>
    intro s d _ _
    exact ⟨s, [], by simp [DataFile.getLoop], rfl⟩
  | cons o rest ih =>
    intro s d hfile hread
    have hrest : ∀ o ∈ rest, (f o).error = false :=
      fun x hx => hread x (List.mem_cons_of_mem _ hx)
    cases hget : s.cache.GetEntry o with
    | some r =>
      obtain ⟨v, c1⟩ := r
      obtain ⟨s', rs, hrun, hlen⟩ := ih { s with cache := c1 } (d ++ [v]) hfile hrest
      exact ⟨s', v :: rs, by simp [DataFile.getLoop, hget, hrun], by simp [hlen]⟩
    | none =>
      have herr : (f o).error = false := hread o (List.mem_cons_self _ _)
      obtain ⟨s', rs, hrun, hlen⟩ := ih { s with
          cache := (s.cache.SetEntry o).setValue o (f o).value
          scanner := { s.scanner with pos := o, hasError := (f o).error,
                                      reads := s.scanner.reads + 1 } }
        (d ++ [(f o).value]) hfile hrest
      refine ⟨s', (f o).value :: rs, ?_, by simp [hlen]⟩
      simp only [DataFile.getLoop, hget, FileScanner.Read_SetPos_some hfile,
        FileScanner.HasError, herr, Bool.false_eq_true, if_false]
      rw [← herr, hrun]
      simp

theorem DataFile.getLoop_false_split [Inhabited N] (env : Env N) (f : FileContent N)
    (os : List FileOffset) :
    ∀ (s : DataFile N) (d : List N) (s' : DataFile N) (d' : List N),
      s.scanner.file = some f →
      DataFile.getLoop env s os d = (false, s', d') →
      ∃ pre o post s1, os = pre ++ o :: post ∧
        DataFile.getLoop env s pre d = (true, s1, d') ∧
        s1.cache.GetEntry o = none ∧ s1.scanner.file = some f ∧ (f o).error = true := by
  induction os with
  | nil =>
    intro s d s' d' _ h
    simp [DataFile.getLoop] at h
  | cons o rest ih =>
    intro s d s' d' hfile h
    cases hget : s.cache.GetEntry o with
    | some r =>
      obtain ⟨v, c1⟩ := r
      simp only [DataFile.getLoop, hget] at h
      obtain ⟨pre, o', post, s1, hos, hrun, hmiss, hf1, herr⟩ :=
        ih { s with cache := c1 } _ _ _ hfile h
      exact ⟨o :: pre, o', post, s1, by rw [hos]; rfl,
        by simp only [DataFile.getLoop, hget]; exact hrun, hmiss, hf1, herr⟩
    | none =>
      rcases Bool.eq_false_or_eq_true (f o).error with herr | herr
      · simp only [DataFile.getLoop, hget, FileScanner.Read_SetPos_some hfile,
          FileScanner.HasError, herr, if_true, Prod.mk.injEq, true_and] at h
        obtain ⟨-, rfl⟩ := h
        exact ⟨[], o, rest, s, rfl, rfl, hget, hfile, herr⟩
      · simp only [DataFile.getLoop, hget, FileScanner.Read_SetPos_some hfile,
          FileScanner.HasError, herr, Bool.false_eq_true, if_false] at h
        obtain ⟨pre, o', post, s1, hos, hrun, hmiss, hf1, herr'⟩ := ih { s with
            cache := (s.cache.SetEntry o).setValue o (f o).value
            scanner := { s.scanner with pos := o, hasError := false,
                                        reads := s.scanner.reads + 1 } } _ _ _ hfile h
        refine ⟨o :: pre, o', post, s1, by rw [hos]; rfl, ?_, hmiss, hf1, herr'⟩
        simp only [DataFile.getLoop, hget, FileScanner.Read_SetPos_some hfile,
          FileScanner.HasError, herr, Bool.false_eq_true, if_false]
        exact hrun

/-- C17: on a ready store, when the index resolves the identifiers `ids` to the
offsets `offs`, `Get(ids, data)` is `Get(offs, data)`: same return value, same
output, same store afterwards, so the records come in the order of `offs`.
The offset form needs no identifier: whenever the data file in use decodes
every offset of a sequence without error, `Get` on that sequence succeeds and
appends one record per offset. -/
theorem DataFile.GetIds_forwards [Inhabited N] (env : Env N) (df : DataFile N)
    (ids : List Id) (offs : List FileOffset) (d : List N)
    (hready : df.isOpen = true) (hres : df.index.GetOffsets ids = some offs) :
    df.GetIds env ids d = df.Get env offs d ∧
      (∀ (f : FileContent N) (os : List FileOffset),
        (df.scanner.file = some f ∨
          (df.scanner.file = none ∧ env.files df.datafilename = some f)) →
        (∀ o ∈ os, (f o).error = false) →
        ∃ s rs, df.Get env os d = some (true, s, d ++ rs) ∧ rs.length = os.length) := by
  refine ⟨DataFile.GetIds_resolved env hready hres d, ?_⟩
  intro f os hfile hread
  obtain ⟨sc, hsf, -, -, -, hrun⟩ := DataFile.Get_loop env hready hfile
  obtain ⟨s, rs, hloop, hlen⟩ :=
    DataFile.getLoop_readable env f os { df with scanner := sc } d hsf hread
  exact ⟨s, rs, by rw [hrun, hloop], hlen⟩

/-- C17 (witness): the index of the opened store maps identifier 1 to offset 0
and identifier 2 to offset 128; `Get([1, 2])` is `Get([0, 128])` and yields the
records 7 and 11, and `Get([128, 256])` succeeds although no identifier maps to
offset 256. -/
theorem DataFile.GetIds_forwards_witness :
    openedStore.isOpen = true ∧ openedStore.index.GetOffsets [1, 2] = some [0, 128] ∧
      openedStore.GetIds demoEnv [1, 2] [] = openedStore.Get demoEnv [0, 128] [] ∧
      observed (openedStore.GetIds demoEnv [1, 2] []) = some (true, [7, 11]) ∧
      (∀ o ∈ [128, 256], (demoFileA o).error = false) ∧
      (∃ s rs, openedStore.Get demoEnv [128, 256] [] = some (true, s, [] ++ rs) ∧
        rs.length = [128, 256].length) := by
  have hread : ∀ o ∈ [128, 256], (demoFileA o).error = false := by
    intro o ho
    simp only [List.mem_cons, List.mem_singleton, List.not_mem_nil, or_false] at ho
    rcases ho with rfl | rfl <;> rfl
  exact ⟨rfl, rfl, (DataFile.GetIds_forwards demoEnv openedStore [1, 2] [0, 128] [] rfl rfl).1,
    rfl, hread,
    (DataFile.GetIds_forwards demoEnv openedStore [1, 2] [0, 128] [] rfl rfl).2
      demoFileA [128, 256] (Or.inl rfl) hread⟩

theorem DataFile.GetSet_elems [Inhabited N] (env : Env N) (df : DataFile N)
    (offsets : StdSet) (d : List N) :
    df.GetSet env offsets d = df.Get env offsets.elems d := by
  simp only [DataFile.GetSet, DataFile.Get, DataFile.getSetLoop_eq]

theorem DataFile.GetIdSet_elems [Inhabited N] (env : Env N) (df : DataFile N)
    (ids : StdSet) (d : List N) :
    df.GetIdSet env ids d = df.GetIds env ids.elems d := by
  simp only [DataFile.GetIdSet, DataFile.GetIds, foldl_push_back]

/-- C18: in every store state the set form of `Get` is the sequence form applied
to the elements of the set in ascending order, for sets of offsets and for sets
of identifiers alike: same return value (or same failed assertion), same
output, same store afterwards. -/
theorem DataFile.GetSet_eq_Get [Inhabited N] (env : Env N) (df : DataFile N)
    (offsets ids : StdSet) (d : List N) :
    df.GetSet env offsets d = df.Get env offsets.elems d ∧
      df.GetIdSet env ids d = df.GetIds env ids.elems d ∧
      offsets.elems.Pairwise (· < ·) ∧ ids.elems.Pairwise (· < ·) :=
  ⟨DataFile.GetSet_elems env df offsets d, DataFile.GetIdSet_elems env df ids d,
    offsets.ascending, ids.ascending⟩

/-- C19: when `Get(offsets, data)` returns false although the data file `f` was
open or could be reopened, the sequence splits into a run `pre`, an offset `o`
that `f` cannot decode and that was not cached when it was reached, and a rest.
The output afterwards is what `Get(pre, data)` alone produces: the prior
content followed by exactly one record per offset of `pre`, in order, each
taken from the cache or decoded from `f`.  Nothing is appended for `o` and the
prior content is kept. -/
theorem DataFile.Get_no_rollback [Inhabited N] (env : Env N) (df df' : DataFile N)
    (os : List FileOffset) (d d' : List N) (f : FileContent N)
    (hfile : df.scanner.file = some f ∨
      (df.scanner.file = none ∧ env.files df.datafilename = some f))
    (h : df.Get env os d = some (false, df', d')) :
    ∃ pre o post s rs, os = pre ++ o :: post ∧ (f o).error = true ∧
      df.Get env pre d = some (true, s, d') ∧ s.cache.GetEntry o = none ∧
      d' = d ++ rs ∧ rs.length = pre.length ∧
      List.Forall₂ (fun x r => (x, r) ∈ df.cache.entries ∨
        ((f x).value = r ∧ (f x).error = false)) pre rs := by
  have h1 : df.isOpen = true := by
    rcases Bool.eq_false_or_eq_true df.isOpen with h1 | h1
    · exact h1
    · rw [DataFile.Get_not_ready h1] at h; exact absurd h (by simp)
  obtain ⟨sc, hsf, -, -, -, hrun⟩ := DataFile.Get_loop env h1 hfile
  rw [hrun] at h
  have hloop : DataFile.getLoop env { df with scanner := sc } os d = (false, df', d') := by
    simpa using h
  obtain ⟨pre, o, post, s, hos, hpre, hmiss, -, herr⟩ :=
    DataFile.getLoop_false_split env f os _ _ _ _ hsf hloop
  obtain ⟨rs, hd, hall, -, -⟩ := DataFile.getLoop_true
    (fun x r => (x, r) ∈ df.cache.entries ∨ ((f x).value = r ∧ (f x).error = false))
    env pre { df with scanner := sc } d s d' (fun e he => Or.inl he)
    (fun g k hg hk => Or.inr (by
      have : g = f := by simpa [hsf] using hg.symm
      subst this; exact ⟨rfl, hk⟩)) hpre
  exact ⟨pre, o, post, s, rs, hos, herr, by rw [hrun, hpre], hmiss, hd,
    hall.length_eq.symm, hall⟩

/-- C19 (witness): `Get([0, 128, 5, 256])` on the warm store with prior output
`[3]` fails at position 3; the output is `[3, 7, 11]`. -/
theorem DataFile.Get_no_rollback_witness :
    (warmStore.scanner.file = some demoFileA ∨
        (warmStore.scanner.file = none ∧ demoEnv.files warmStore.datafilename = some demoFileA)) ∧
      warmStore.Get demoEnv [0, 128, 5, 256] [3]
        = some (false, storeAfter (warmStore.Get demoEnv [0, 128, 5, 256] [3]) warmStore,
            [3, 7, 11]) ∧
      ∃ pre o post s rs, [0, 128, 5, 256] = pre ++ o :: post ∧ (demoFileA o).error = true ∧
        warmStore.Get demoEnv pre [3] = some (true, s, [3, 7, 11]) ∧
        s.cache.GetEntry o = none ∧
        [3, 7, 11] = [3] ++ rs ∧ rs.length = pre.length ∧
        List.Forall₂ (fun x r => (x, r) ∈ warmStore.cache.entries ∨
          ((demoFileA x).value = r ∧ (demoFileA x).error = false)) pre rs :=
  ⟨Or.inl rfl, rfl,
    DataFile.Get_no_rollback demoEnv warmStore
      (storeAfter (warmStore.Get demoEnv [0, 128, 5, 256] [3]) warmStore)
      [0, 128, 5, 256] [3] [3, 7, 11] demoFileA (Or.inl rfl) rfl⟩

/-! ## Reopening and the cache across the lifecycle -/

theorem DataFile.alike_refl (a : DataFile N) : DataFile.alike a a :=
  ⟨rfl, rfl, rfl, rfl, rfl, rfl, rfl⟩

theorem DataFile.getLoop_alike [Inhabited N] (env : Env N) (os : List FileOffset) :
    ∀ (a b : DataFile N) (d : List N), DataFile.alike a b →
      (DataFile.getLoop env a os d).1 = (DataFile.getLoop env b os d).1 ∧
        (DataFile.getLoop env a os d).2.2 = (DataFile.getLoop env b os d).2.2 ∧
        DataFile.alike (DataFile.getLoop env a os d).2.1 (DataFile.getLoop env b os d).2.1 := by
  induction os with
  | nil =>
    intro a b d hab
    exact ⟨rfl, rfl, hab⟩
  | cons o rest ih =>
    intro a b d hab
    obtain ⟨h1, h2, h3, h4, h5, h6, h7⟩ := hab
    cases hget : a.cache.GetEntry o with
    | some r =>
      obtain ⟨v, c1⟩ := r
      have hgetb : b.cache.GetEntry o = some (v, c1) := by rw [← h4]; exact hget
      simp only [DataFile.getLoop, hget, hgetb]
      exact ih _ _ _ ⟨h1, h2, h3, rfl, h5, h6, h7⟩
    | none =>
      have hgetb : b.cache.GetEntry o = none := by rw [← h4]; exact hget
      cases hfa : a.scanner.file with
      | none =>
        have hfb : b.scanner.file = none := by rw [← h5]; exact hfa
        have hea := FileScanner.Read_SetPos_none hfa o
        have heb := FileScanner.Read_SetPos_none hfb o
        simp only [DataFile.getLoop, hget, hgetb, hea, heb, if_true]
        refine ⟨trivial, trivial, h1, h2, h3, ?_, ?_, h6, h7⟩
        · simp [FileScanner.Read, FileScanner.SetPos, hfa, hfb, h4]
        · simp [FileScanner.Close_file]
      | some f =>
        have hfb : b.scanner.file = some f := by rw [← h5]; exact hfa
        simp only [DataFile.getLoop, hget, hgetb, FileScanner.Read_SetPos_some hfa,
          FileScanner.Read_SetPos_some hfb, FileScanner.HasError]
        rcases Bool.eq_false_or_eq_true (f o).error with herr | herr
        · simp only [herr, if_true]
          refine ⟨trivial, trivial, h1, h2, h3, by simp [h4], ?_, h6, h7⟩
          simp [FileScanner.Close_file]
        · simp only [herr, Bool.false_eq_true, if_false]
          exact ih _ _ _ ⟨h1, h2, h3, by simp [h4], by simp [hfa, hfb], h6, h7⟩

theorem DataFile.Get_alike [Inhabited N] (env : Env N) {a b : DataFile N}
    (hab : DataFile.alike a b) (os : List FileOffset) (d : List N) :
    observed (a.Get env os d) = observed (b.Get env os d) ∧
      DataFile.alike (storeAfter (a.Get env os d) a) (storeAfter (b.Get env os d) b) := by
  obtain ⟨h1, h2, h3, h4, h5, h6, h7⟩ := hab
  have hab : DataFile.alike a b := ⟨h1, h2, h3, h4, h5, h6, h7⟩
  rcases Bool.eq_false_or_eq_true a.isOpen with ha | ha
  swap
  · have hb : b.isOpen = false := by rw [← h1]; exact ha
    rw [DataFile.Get_not_ready ha, DataFile.Get_not_ready hb]
    exact ⟨rfl, hab⟩
  have hb : b.isOpen = true := by rw [← h1]; exact ha
  rcases Bool.eq_false_or_eq_true a.scanner.IsOpen with hsa | hsa
  · have hsb : b.scanner.IsOpen = true := by
      simpa [FileScanner.IsOpen, ← h5] using hsa
    rw [DataFile.Get_open ha hsa, DataFile.Get_open hb hsb]
    obtain ⟨e1, e2, e3⟩ := DataFile.getLoop_alike env os a b d hab
    exact ⟨by simp [observed, e1, e2], e3⟩
  · have hsb : b.scanner.IsOpen = false := by
      simpa [FileScanner.IsOpen, ← h5] using hsa
    cases hf : env.files a.datafilename with
    | none =>
      have h3a : (a.scanner.Open env a.datafilename).1 = false := by
        simp [FileScanner.Open, hf]
      have h3b : (b.scanner.Open env b.datafilename).1 = false := by
        simp [FileScanner.Open, ← h3, hf]
      rw [DataFile.Get_reopen_failed ha hsa h3a, DataFile.Get_reopen_failed hb hsb h3b]
      refine ⟨rfl, h1, h2, h3, h4, ?_, h6, h7⟩
      simp [storeAfter, FileScanner.Open, ← h3, hf]
    | some f =>
      have h3a : (a.scanner.Open env a.datafilename).1 = true := by
        simp [FileScanner.Open, hf]
      have h3b : (b.scanner.Open env b.datafilename).1 = true := by
        simp [FileScanner.Open, ← h3, hf]
      rw [DataFile.Get_reopen ha hsa h3a, DataFile.Get_reopen hb hsb h3b]
      obtain ⟨e1, e2, e3⟩ := DataFile.getLoop_alike env os
        { a with scanner := (a.scanner.Open env a.datafilename).2 }
        { b with scanner := (b.scanner.Open env b.datafilename).2 } d
        ⟨h1, h2, h3, h4, by simp [FileScanner.Open, ← h3, hf], h6, h7⟩
      exact ⟨by simp [observed, e1, e2], e3⟩

theorem DataFile.getSeries_alike [Inhabited N] (env : Env N)
    (calls : List (List FileOffset × List N)) :
    ∀ (a b : DataFile N), DataFile.alike a b →
      DataFile.getSeries env a calls = DataFile.getSeries env b calls := by
  induction calls with
  | nil => intro a b _; rfl
  | cons call rest ih =>
    intro a b hab
    obtain ⟨e1, e2⟩ := DataFile.Get_alike env hab call.1 call.2
    simp only [DataFile.getSeries, e1, ih _ _ e2]

theorem DataFile.GetIds_alike [Inhabited N] (env : Env N) {a b : DataFile N}
    (hab : DataFile.alike a b) (ids : List Id) (d : List N) :
    observed (a.GetIds env ids d) = observed (b.GetIds env ids d) := by
  have hidx : a.index.GetOffsets ids = b.index.GetOffsets ids := by
    simp only [DataIndex.GetOffsets, hab.2.2.2.2.2.2]
  rcases Bool.eq_false_or_eq_true a.isOpen with ha | ha
  swap
  · have hb : b.isOpen = false := by rw [← hab.1]; exact ha
    simp [DataFile.GetIds, ha, hb]
  have hb : b.isOpen = true := by rw [← hab.1]; exact ha
  cases hres : a.index.GetOffsets ids with
  | none =>
    rw [DataFile.GetIds_unresolved env ha hres, DataFile.GetIds_unresolved env hb (hidx ▸ hres)]
    rfl
  | some offs =>
    rw [DataFile.GetIds_resolved env ha hres, DataFile.GetIds_resolved env hb (hidx ▸ hres)]
    exact (DataFile.Get_alike env hab offs d).1

theorem DataFile.GetId_observed [Inhabited N] (env : Env N) (s : DataFile N) (id : Id) (e : N) :
    (s.GetId env id e).map (fun r => (r.1, r.2.2)) =
      if s.isOpen then
        (observed (s.GetIds env [id] [])).map
          (fun p => if p.1 && p.2.length == 1 then (true, p.2.headD e) else (false, e))
      else none := by
  rcases Bool.eq_false_or_eq_true s.isOpen with h | h
  · simp only [DataFile.GetId, h, Bool.not_true, Bool.false_eq_true, if_false, if_true]
    cases hr : s.GetIds env [id] [] with
    | none => rfl
    | some r =>
      obtain ⟨ok, s1, data⟩ := r
      simp only [observed, Option.map_some']
      split <;> rfl
  · simp [DataFile.GetId, h]

theorem DataFile.Open_valid (env : Env N) (df : DataFile N) (path : String)
    {f : FileContent N} {ix : IndexContent}
    (hfile : env.files (path ++ "/" ++ df.datafile) = some f)
    (hindex : env.indexFiles (path ++ "/" ++ df.index.indexfile) = some ix) :
    df.Open env path = (true, { df with
      isOpen := true
      datafilename := path ++ "/" ++ df.datafile
      scanner := { df.scanner with file := some f, pos := 0, hasError := false,
                                   opens := df.scanner.opens + 1 }
      index := { df.index with content := some ix, loads := df.index.loads + 1 } }) := by
  simp [DataFile.Open, FileScanner.Open, DataIndex.Load, hfile, hindex]

/-- Reopening on unchanged files: when the data file and the index file under
`path` can be opened with the same content at both calls, `Open(path)`,
`Close()`, `Open(path)` returns true both times, and the store after the second
`Open` answers every form of `Get`, and every series of `Get` calls, as the
store right after the first `Open` does. -/
theorem DataFile.Open_Close_Open [Inhabited N] (env1 envc env3 : Env N) (df : DataFile N)
    (path : String) (f : FileContent N) (ix : IndexContent)
    (hfile1 : env1.files (path ++ "/" ++ df.datafile) = some f)
    (hindex1 : env1.indexFiles (path ++ "/" ++ df.index.indexfile) = some ix)
    (hfile3 : env3.files (path ++ "/" ++ df.datafile) = some f)
    (hindex3 : env3.indexFiles (path ++ "/" ++ df.index.indexfile) = some ix) :
    (df.Open env1 path).1 = true ∧
      ((((df.Open env1 path).2.Close envc).2).Open env3 path).1 = true ∧
      ∀ (env : Env N) (os : List FileOffset) (oset : StdSet) (ids : List Id) (idset : StdSet)
        (id : Id) (e : N) (d : List N) (calls : List (List FileOffset × List N)),
        observed (((((df.Open env1 path).2.Close envc).2).Open env3 path).2.Get env os d)
            = observed ((df.Open env1 path).2.Get env os d) ∧
          observed (((((df.Open env1 path).2.Close envc).2).Open env3 path).2.GetSet env oset d)
            = observed ((df.Open env1 path).2.GetSet env oset d) ∧
          observed (((((df.Open env1 path).2.Close envc).2).Open env3 path).2.GetIds env ids d)
            = observed ((df.Open env1 path).2.GetIds env ids d) ∧
          observed (((((df.Open env1 path).2.Close envc).2).Open env3 path).2.GetIdSet env idset d)
            = observed ((df.Open env1 path).2.GetIdSet env idset d) ∧
          (((((df.Open env1 path).2.Close envc).2).Open env3 path).2.GetId env id e).map
              (fun r => (r.1, r.2.2))
            = ((df.Open env1 path).2.GetId env id e).map (fun r => (r.1, r.2.2)) ∧
          DataFile.getSeries env ((((df.Open env1 path).2.Close envc).2).Open env3 path).2 calls
            = DataFile.getSeries env (df.Open env1 path).2 calls := by
  have h1 := DataFile.Open_valid env1 df path hfile1 hindex1
  have h3 := DataFile.Open_valid env3 ((df.Open env1 path).2.Close envc).2 path
      (by rw [DataFile.Close_store, h1]; exact hfile3)
      (by rw [DataFile.Close_store, h1]; exact hindex3)
  have hab : DataFile.alike ((((df.Open env1 path).2.Close envc).2).Open env3 path).2
      (df.Open env1 path).2 := by
    rw [h3, DataFile.Close_store, h1]
    exact ⟨rfl, rfl, rfl, rfl, rfl, rfl, rfl⟩
  refine ⟨by rw [h1], by rw [h3], ?_⟩
  intro env os oset ids idset id e d calls
  refine ⟨(DataFile.Get_alike env hab os d).1, ?_, DataFile.GetIds_alike env hab ids d, ?_, ?_,
    DataFile.getSeries_alike env calls _ _ hab⟩
  · rw [DataFile.GetSet_elems, DataFile.GetSet_elems]
    exact (DataFile.Get_alike env hab oset.elems d).1
  · rw [DataFile.GetIdSet_elems, DataFile.GetIdSet_elems]
    exact DataFile.GetIds_alike env hab idset.elems d
  · rw [DataFile.GetId_observed, DataFile.GetId_observed, DataFile.GetIds_alike env hab [id] [],
      hab.1]

theorem DataFile.Open_cache (env : Env N) (s : DataFile N) (path : String) :
    (s.Open env path).2.cache = s.cache := by
  unfold DataFile.Open
  rcases Bool.eq_false_or_eq_true (s.scanner.Open env (path ++ "/" ++ s.datafile)).1
    with hs | hs <;> simp [hs]

theorem DataFile.Open_scanner (env : Env N) (s : DataFile N) (path : String) :
    (s.Open env path).2.scanner = (s.scanner.Open env (path ++ "/" ++ s.datafile)).2 := by
  unfold DataFile.Open
  rcases Bool.eq_false_or_eq_true (s.scanner.Open env (path ++ "/" ++ s.datafile)).1
    with hs | hs <;> simp [hs]

theorem ReachableOn.invariant [Inhabited N] {f : FileContent N} {s : DataFile N}
    (h : ReachableOn f s) :
    (∀ g, s.scanner.file = some g → g = f) ∧
      ∀ e ∈ s.cache.entries, (f e.1).value = e.2 ∧ (f e.1).error = false := by
  induction h with
  | fresh datafile indexfile cacheSize =>
    exact ⟨fun g hg => by simp [DataFile.create] at hg, fun e he => by simp [DataFile.create] at he⟩
  | afterOpen env path s henv _ ih =>
    refine ⟨?_, by rw [DataFile.Open_cache]; exact ih.2⟩
    intro g hg
    rw [DataFile.Open_scanner] at hg
    unfold FileScanner.Open at hg
    cases hf : env.files (path ++ "/" ++ s.datafile) with
    | none => simp [hf] at hg
    | some g0 =>
      simp only [hf, Option.some.injEq] at hg
      rw [← hg]
      exact henv _ _ hf
  | afterClose env s _ ih =>
    rw [DataFile.Close_store]
    exact ⟨fun g hg => by simp at hg, ih.2⟩
  | afterGet env s s' os d d' henv _ hget ih =>
    obtain ⟨h1, g, hfile⟩ := DataFile.Get_true_file hget
    have hg : g = f := by
      rcases hfile with hfile | ⟨-, hfile⟩
      · exact ih.1 g hfile
      · exact henv _ _ hfile
    subst hg
    obtain ⟨sc, hsf, -, -, -, hrun⟩ := DataFile.Get_loop env h1 hfile
    rw [hrun] at hget
    have hloop : DataFile.getLoop env { s with scanner := sc } os d = (true, s', d') := by
      simpa using hget
    obtain ⟨rs, -, -, hfl, hc⟩ := DataFile.getLoop_true
      (fun o r => (g o).value = r ∧ (g o).error = false) env os
      { s with scanner := sc } d s' d' ih.2
      (fun g0 k hg0 hk => by
        have : g0 = g := by simpa [hsf] using hg0.symm
        subst this; exact ⟨rfl, hk⟩) hloop
    refine ⟨?_, hc⟩
    intro g0 hg0
    rw [hfl] at hg0
    simpa [hsf] using hg0.symm
  | afterFailedReopen env s os d _ hready hclosed hnone ih =>
    have h3 : (s.scanner.Open env s.datafilename).1 = false := by
      simp [FileScanner.Open, hnone]
    rw [DataFile.Get_reopen_failed hready hclosed h3]
    refine ⟨?_, ih.2⟩
    intro g hg
    simp [storeAfter, FileScanner.Open, hnone] at hg

theorem DataFile.GetIds_true [Inhabited N] {env : Env N} {s s' : DataFile N} {ids : List Id}
    {d d' : List N} (h : s.GetIds env ids d = some (true, s', d')) :
    ∃ offs, s.Get env offs d = some (true, s', d') := by
  rcases Bool.eq_false_or_eq_true s.isOpen with h1 | h1
  swap
  · simp [DataFile.GetIds, h1] at h
  cases hres : s.index.GetOffsets ids with
  | none =>
    rw [DataFile.GetIds_unresolved env h1 hres] at h
    simp at h
  | some offs =>
    rw [DataFile.GetIds_resolved env h1 hres] at h
    exact ⟨offs, h⟩

/-- C16 (amended): in every state reached from construction through `Open`,
`Close` and `Get` calls without a read error, when every data file the store
could open had the content `f`, the reader is bound to `f` if it is open and
every cache entry keyed by an offset holds the record `f` decodes there without
error; a successful `Get` then returns exactly the records `f` decodes at its
offsets.  Every form of `Get` that returns true leads to such a state again.
`Open` and `Close` never change the cache. -/
theorem DataFile.cache_matches_file [Inhabited N] (f : FileContent N) (s : DataFile N)
    (h : ReachableOn f s) :
    (∀ g, s.scanner.file = some g → g = f) ∧
      (∀ e ∈ s.cache.entries, (f e.1).value = e.2 ∧ (f e.1).error = false) ∧
      (∀ (env : Env N), (∀ n g, env.files n = some g → g = f) →
        (∀ os d s' d', s.Get env os d = some (true, s', d') →
          d' = d ++ os.map (fun o => (f o).value)) ∧
        (∀ oset d s' d', s.GetSet env oset d = some (true, s', d') → ReachableOn f s') ∧
        (∀ ids d s' d', s.GetIds env ids d = some (true, s', d') → ReachableOn f s') ∧
        (∀ idset d s' d', s.GetIdSet env idset d = some (true, s', d') → ReachableOn f s') ∧
        (∀ id e s' e', s.GetId env id e = some (true, s', e') → ReachableOn f s')) ∧
      (∀ (env : Env N) (path : String),
        (s.Open env path).2.cache = s.cache ∧ (s.Close env).2.cache = s.cache) := by
  obtain ⟨hfile, hcache⟩ := ReachableOn.invariant h
  refine ⟨hfile, hcache, ?_, ?_⟩
  · intro env henv
    refine ⟨?_, ?_, ?_, ?_, ?_⟩
    · intro os d s' d' hget
      obtain ⟨h1, g, hg⟩ := DataFile.Get_true_file hget
      have hgf : g = f := by
        rcases hg with hg | ⟨-, hg⟩
        · exact hfile g hg
        · exact henv _ _ hg
      subst hgf
      obtain ⟨sc, hsf, -, -, -, hrun⟩ := DataFile.Get_loop env h1 hg
      rw [hrun] at hget
      have hloop : DataFile.getLoop env { s with scanner := sc } os d = (true, s', d') := by
        simpa using hget
      obtain ⟨rs, hd, hall, -, -⟩ := DataFile.getLoop_true
        (fun o r => (g o).value = r) env os { s with scanner := sc } d s' d'
        (fun e he => (hcache e he).1)
        (fun g0 k hg0 _ => by
          have : g0 = g := by simpa [hsf] using hg0.symm
          subst this; rfl) hloop
      rw [hd, forall₂_eq_map (fun _ => True) (hall.imp (fun _ _ hq _ => hq))
        (fun _ _ => trivial)]
    · intro oset d s' d' hget
      rw [DataFile.GetSet_elems] at hget
      exact ReachableOn.afterGet env s s' oset.elems d d' henv h hget
    · intro ids d s' d' hget
      obtain ⟨offs, hoffs⟩ := DataFile.GetIds_true hget
      exact ReachableOn.afterGet env s s' offs d d' henv h hoffs
    · intro idset d s' d' hget
      rw [DataFile.GetIdSet_elems] at hget
      obtain ⟨offs, hoffs⟩ := DataFile.GetIds_true hget
      exact ReachableOn.afterGet env s s' offs d d' henv h hoffs
    · intro id e s' e' hget
      obtain ⟨-, offs, -, hoffs⟩ := DataFile.GetId_true hget
      exact ReachableOn.afterGet env s s' offs [] [e'] henv h hoffs
  · intro env path
    exact ⟨DataFile.Open_cache env s path, by rw [DataFile.Close_store]⟩

/-- C16 (witness): the cold store opened on directory `a` and asked for offsets
0 and 128 is such a state, and its cache holds what the data file decodes. -/
theorem DataFile.cache_matches_file_witness :
    ReachableOn demoFileA
        (storeAfter ((coldStore.Open soloEnv "a").2.Get soloEnv [0, 128] []) coldStore) ∧
      (storeAfter ((coldStore.Open soloEnv "a").2.Get soloEnv [0, 128] []) coldStore).cache.entries
        = [(128, 11), (0, 7)] ∧
      ∀ e ∈ (storeAfter ((coldStore.Open soloEnv "a").2.Get soloEnv [0, 128] [])
          coldStore).cache.entries,
        (demoFileA e.1).value = e.2 ∧ (demoFileA e.1).error = false := by
  have hsolo : ∀ n g, soloEnv.files n = some g → g = demoFileA := by
    intro n g hg
    simp only [soloEnv] at hg
    split at hg
    · exact (Option.some.inj hg).symm
    · exact absurd hg (by simp)
  have hreach : ReachableOn demoFileA
      (storeAfter ((coldStore.Open soloEnv "a").2.Get soloEnv [0, 128] []) coldStore) :=
    ReachableOn.afterGet soloEnv (coldStore.Open soloEnv "a").2 _ [0, 128] [] [7, 11] hsolo
      (ReachableOn.afterOpen soloEnv "a" coldStore hsolo
        (ReachableOn.fresh "ways.dat" "ways.idx" 2)) rfl
  exact ⟨hreach, rfl, (DataFile.cache_matches_file demoFileA _ hreach).2.1⟩

/-- C16 (counterexample): the swapped store was opened on directory `a`, served
`Get([0])` with record 7, was closed and opened on directory `b`.  No read
error has occurred and the store is ready on the data file of `b`, which
decodes record 5 at offset 0; the cache still holds record 7 for offset 0 and
`Get([0])` returns it. -/
theorem DataFile.cache_stale_after_swap_counterexample :
    observed (((DataFile.create "ways.dat" "ways.idx" 1 : DataFile Nat).Open demoEnv "a").2.Get
        demoEnv [0] []) = some (true, [7]) ∧
      swappedStore.isOpen = true ∧ swappedStore.datafilename = "b/ways.dat" ∧
      (∃ g, swappedStore.scanner.file = some g ∧ (g 0).value = 5 ∧ (g 0).error = false) ∧
      swappedStore.cache.entries = [(0, 7)] ∧
      observed (swappedStore.Get demoEnv [0] []) = some (true, [7]) :=
  ⟨rfl, rfl, by decide, ⟨demoFileB, rfl, rfl, rfl⟩, rfl, rfl⟩

/-! ## After a read error -/

/-- On a store in a state reached without any read error, with the reader on
the data file `f` or able to reopen it, `Get` on offsets that `f` decodes
without error returns true with exactly the decoded records, whatever the cache
holds: repeating such a call after `Close` and `Open` on the same file gives
the same result. -/
theorem ReachableOn.Get_decoded [Inhabited N] {f : FileContent N} {s : DataFile N}
    (h : ReachableOn f s) (env : Env N) (hready : s.isOpen = true)
    (hfile : s.scanner.file = some f ∨
      (s.scanner.file = none ∧ env.files s.datafilename = some f))
    (os : List FileOffset) (d : List N) (hread : ∀ o ∈ os, (f o).error = false) :
    ∃ s', s.Get env os d = some (true, s', d ++ os.map (fun o => (f o).value)) := by
  obtain ⟨-, hcache⟩ := ReachableOn.invariant h
  obtain ⟨sc, hsf, -, -, -, hrun⟩ := DataFile.Get_loop env hready hfile
  obtain ⟨s', rs, hloop, -⟩ :=
    DataFile.getLoop_readable env f os { s with scanner := sc } d hsf hread
  obtain ⟨rs', hd, hall, -, -⟩ := DataFile.getLoop_true
    (fun o r => (f o).value = r) env os { s with scanner := sc } d s' (d ++ rs)
    (fun e he => (hcache e he).1)
    (fun g k hg _ => by
      have : g = f := by simpa [hsf] using hg.symm
      subst this; rfl) hloop
  refine ⟨s', ?_⟩
  rw [hrun, hloop, hd, forall₂_eq_map (fun _ => True) (hall.imp (fun _ _ hq _ => hq))
    (fun _ _ => trivial)]

/-- C15 (evaluation at the failing input): the cold store is opened on
directory `a`, whose data file cannot decode offset 5.  `Open` returns true and
`Get([5])` returns false with an empty output.  After `Close` and a second
`Open` on the same directory, which returns true as well, the same `Get([5])`
returns true with the value 99 that the failed decode left in the cache. -/
theorem DataFile.Open_Close_Open_broken_record :
    (coldStore.Open demoEnv "a").1 = true ∧ (demoFileA 5).error = true ∧
      observed ((coldStore.Open demoEnv "a").2.Get demoEnv [5] []) = some (false, []) ∧
      (((storeAfter ((coldStore.Open demoEnv "a").2.Get demoEnv [5] [])
          coldStore).Close demoEnv).2.Open demoEnv "a").1 = true ∧
      reopenedStore
        = (((storeAfter ((coldStore.Open demoEnv "a").2.Get demoEnv [5] [])
            coldStore).Close demoEnv).2.Open demoEnv "a").2 ∧
      observed (reopenedStore.Get demoEnv [5] []) = some (true, [99]) :=
  ⟨rfl, rfl, rfl, rfl, rfl, rfl⟩

end osmscout
